import Mathlib

/-!
# was-8-go: cache adapter and event publisher

A shallow embedding of `internal/cache/cache.go` and `internal/messaging/kafka.go`.

The Go services talk to collaborators that live outside the repository (the Redis
cluster client, the Kafka writer, the JSON encoder, the entropy source, the clock).
Each collaborator is a record of operations over an explicit world state; the service
methods are written against those records exactly as the Go methods are written
against the client objects.  A generic "recording" wrapper turns any collaborator
into one that also keeps the list of calls made on it, which is how statements such
as "exactly one backend call" are expressed.  For the publisher the transport is modelled at
two levels: the call of `writer.WriteMessages` that `Send` makes, and the produce requests the
writer built by `NewMessageService` turns that call into.

Go strings are modelled by Lean strings, `[]byte(s)` by the string itself,
`time.Duration` (int64 nanoseconds) by `Int`, and a Go `error` by `Option` of an
error value (`none` is `nil`).
-/

set_option autoImplicit false

/-! ## Logging (zap.SugaredLogger) -/

/-- Log levels used by the two services. -/
inductive Level
  | Debug
  | Info
  | Warn
  | Error
deriving DecidableEq, Repr

/-- One argument handed to a `...f` logging call (the value behind a `%s` / `%v` verb). -/
inductive LogArg
  | str (s : String)
  | bool (b : Bool)
  | int (i : Int)
deriving DecidableEq, Repr

/-- A call to `logger.Errorf` / `Debugf` / `Infof`: level, format template, arguments. -/
structure LogEntry where
  level : Level
  template : String
  args : List LogArg
deriving DecidableEq, Repr

namespace cache

/-! ## Redis client interface -/

/-- Error values handed back by the Redis client.  `Nil` is the sentinel `redis.Nil`
("key does not exist"); every other error (timeout, network, cluster) is `Other`. -/
inductive RedisError
  | Nil
  | Other (text : String)
deriving DecidableEq, Repr

/-- The `Error()` text of an error value. -/
def RedisError.Error : RedisError → String
  | .Nil => "redis: nil"
  | .Other t => t

/-- The part of `*redis.ClusterClient` used by `CacheService`, over a backend state `σ`.
`Get k` is `client.Get(ctx, k).Result()`, `Set k v ttl` is `client.Set(ctx, k, v, ttl).Err()`,
`Del k` is `client.Del(ctx, k).Result()`.  The two-second context deadline is part of the
client call: an expired deadline shows up as an `Other` error. -/
structure ClusterClient (σ : Type) where
  Get : String → σ → (String × Option RedisError) × σ
  Set : String → String → Int → σ → Option RedisError × σ
  Del : String → σ → (Int × Option RedisError) × σ

/-- A call made on the cluster client. -/
inductive Call
  | get (key : String)
  | set (key value : String) (ttl : Int)
  | del (key : String)
deriving DecidableEq, Repr

/-- The same client, additionally keeping the list of calls made on it. -/
def ClusterClient.recording {σ : Type} (c : ClusterClient σ) : ClusterClient (σ × List Call) where
  Get := fun k s => ((c.Get k s.1).1, ((c.Get k s.1).2, s.2 ++ [Call.get k]))
  Set := fun k v ttl s => ((c.Set k v ttl s.1).1, ((c.Set k v ttl s.1).2, s.2 ++ [Call.set k v ttl]))
  Del := fun k s => ((c.Del k s.1).1, ((c.Del k s.1).2, s.2 ++ [Call.del k]))

/-- State threaded through the service methods: the backend and the logger output. -/
structure World (σ : Type) where
  backend : σ
  log : List LogEntry

/-- The Go struct `CacheService` (its `logger` field is the `log` of the world). -/
structure CacheService (σ : Type) where
  client : ClusterClient σ

/-- Go method `func (s *CacheService) Get(key string) (string, bool)`. -/
def CacheService.Get {σ : Type} (s : CacheService σ) (key : String) (w : World σ) :
    (String × Bool) × World σ :=
  let r := s.client.Get key w.backend
  let value := r.1.1
  let err := r.1.2
  if err = some RedisError.Nil then
    (("", false), { backend := r.2, log := w.log })
  else
    match err with
    | some e =>
      (("", false),
       { backend := r.2,
         log := w.log ++ [⟨Level.Error, "Cache GET error: key=%s, error=%v",
                          [LogArg.str key, LogArg.str e.Error]⟩] })
    | none =>
      ((value, true),
       { backend := r.2,
         log := w.log ++ [⟨Level.Debug, "Cache GET: key=%s, found=true", [LogArg.str key]⟩] })

/-- Go method `func (s *CacheService) Set(key, value string, ttl time.Duration) error`. -/
def CacheService.Set {σ : Type} (s : CacheService σ) (key value : String) (ttl : Int)
    (w : World σ) : Option RedisError × World σ :=
  let r := s.client.Set key value ttl w.backend
  match r.1 with
  | some e =>
    (some e,
     { backend := r.2,
       log := w.log ++ [⟨Level.Error, "Cache SET error: key=%s, error=%v",
                        [LogArg.str key, LogArg.str e.Error]⟩] })
  | none =>
    (none,
     { backend := r.2,
       log := w.log ++ [⟨Level.Debug, "Cache SET: key=%s, ttl=%v", [LogArg.str key, LogArg.int ttl]⟩] })

/-- Go method `func (s *CacheService) Delete(key string) bool`. -/
def CacheService.Delete {σ : Type} (s : CacheService σ) (key : String) (w : World σ) :
    Bool × World σ :=
  let r := s.client.Del key w.backend
  let result := r.1.1
  match r.1.2 with
  | some e =>
    (false,
     { backend := r.2,
       log := w.log ++ [⟨Level.Error, "Cache DELETE error: key=%s, error=%v",
                        [LogArg.str key, LogArg.str e.Error]⟩] })
  | none =>
    (decide (result > 0),
     { backend := r.2,
       log := w.log ++ [⟨Level.Debug, "Cache DELETE: key=%s, deleted=%v",
                        [LogArg.str key, LogArg.bool (decide (result > 0))]⟩] })

/-! ## An in-memory single-node backend -/

/-- The constant `redis.KeepTTL`: the duration value that asks SET to keep the key's current expiry. -/
def KeepTTL : Int := -1

/-- An entry of the in-memory store: the value and, when the key expires, the instant
(nanoseconds on the store's clock) at which it does. -/
structure Entry where
  value : String
  deadline : Option Int
deriving DecidableEq, Repr

/-- The emulated single-node backend the round-trip properties are stated against (it is a test
double, the repository has none): a key-value map with a clock; no call on it ever fails. -/
structure MemStore where
  now : Int
  entries : String → Option Entry

/-- The live entry under a key: present and not past its deadline. -/
def MemStore.lookup (m : MemStore) (key : String) : Option Entry :=
  match m.entries key with
  | some e =>
    match e.deadline with
    | some d => if m.now < d then some e else none
    | none => some e
  | none => none

/-- The expiry SET gives a key: a positive ttl sets a deadline, `KeepTTL` keeps the live
entry's deadline, anything else (zero included) means no expiry. -/
def MemStore.deadlineFor (m : MemStore) (key : String) (ttl : Int) : Option Int :=
  if ttl > 0 then some (m.now + ttl)
  else if ttl = KeepTTL then
    match m.lookup key with
    | some e => e.deadline
    | none => none
  else none

/-- The cluster client of the emulated single-node backend.  GET answers `redis.Nil` for a
missing key, SET stores the value with the expiry go-redis asks for, DEL answers the number of
keys removed. -/
def memClient : ClusterClient MemStore where
  Get := fun k m =>
    match m.lookup k with
    | some e => ((e.value, none), m)
    | none => (("", some RedisError.Nil), m)
  Set := fun k v ttl m =>
    (none, { m with entries := fun k' =>
      if k' = k then some ⟨v, m.deadlineFor k ttl⟩ else m.entries k' })
  Del := fun k m =>
    match m.lookup k with
    | some _ => ((1, none), { m with entries := fun k' => if k' = k then none else m.entries k' })
    | none => ((0, none), { m with entries := fun k' => if k' = k then none else m.entries k' })

/-- The service over the in-memory backend. -/
def memService : CacheService MemStore := ⟨memClient⟩

/-- An empty store whose clock reads `t`. -/
def MemStore.empty (t : Int) : MemStore := ⟨t, fun _ => none⟩

end cache

/-! ## Go runtime pieces used by the publisher -/

/-- A Go `error` value of the messaging side, identified by its `Error()` text. -/
structure GoError where
  Error : String
deriving DecidableEq, Repr

/-- How a Go call ends: it returns a value, or it panics. -/
inductive Outcome (α : Type)
  | returned (a : α)
  | panicked (e : GoError)

/-- The value returned by a call, if it returned. -/
def Outcome.value? {α : Type} : Outcome α → Option α
  | .returned a => some a
  | .panicked _ => none

namespace strings

/-- Scanning loop of `strings.Split` for a one-byte separator: `cur` holds the bytes of the
current piece, most recent first. -/
def splitLoop (sep : Char) : List Char → List Char → List String
  | cur, [] => [String.mk cur.reverse]
  | cur, c :: cs =>
    if c = sep then String.mk cur.reverse :: splitLoop sep [] cs
    else splitLoop sep (c :: cur) cs

/-- Go function `strings.Split(s, sep)` for a one-byte separator (the services only ever pass `","`):
the pieces of `s` between consecutive occurrences of `sep`. -/
def Split (s : String) (sep : Char) : List String :=
  splitLoop sep [] s.data

end strings

namespace uuid

/-- A `uuid.UUID`: sixteen bytes. -/
abbrev UUID := Fin 16 → Fin 256

/-- The table `hextable` of `encoding/hex`. -/
def hextable : List Char :=
  ['0', '1', '2', '3', '4', '5', '6', '7', '8', '9', 'a', 'b', 'c', 'd', 'e', 'f']

/-- Go function `hex.Encode` on one byte: high nibble, then low nibble. -/
def hexByte (b : Fin 256) : List Char :=
  [hextable.getD (b.val >>> 4) '0', hextable.getD (b.val &&& 0x0f) '0']

/-- Function `encodeHex` of google/uuid: the 36-byte text form `xxxxxxxx-xxxx-xxxx-xxxx-xxxxxxxxxxxx`. -/
def encodeHex (u : UUID) : List Char :=
  hexByte (u 0) ++ hexByte (u 1) ++ hexByte (u 2) ++ hexByte (u 3) ++ ['-'] ++
  hexByte (u 4) ++ hexByte (u 5) ++ ['-'] ++
  hexByte (u 6) ++ hexByte (u 7) ++ ['-'] ++
  hexByte (u 8) ++ hexByte (u 9) ++ ['-'] ++
  hexByte (u 10) ++ hexByte (u 11) ++ hexByte (u 12) ++ hexByte (u 13) ++
  hexByte (u 14) ++ hexByte (u 15)

/-- Go method `func (uuid UUID) String() string` of google/uuid. -/
def UUID.String (u : UUID) : String :=
  String.mk (encodeHex u)

/-- The tail of `NewRandomFromReader`: the sixteen bytes read from the entropy source get the
version (4) and variant (10) bits:
`uuid[6] = (uuid[6] & 0x0f) | 0x40` and `uuid[8] = (uuid[8] & 0x3f) | 0x80`. -/
def stamp (raw : UUID) : UUID :=
  Function.update (Function.update raw 6 ((raw 6 &&& 0x0f) ||| 0x40)) 8 ((raw 8 &&& 0x3f) ||| 0x80)

end uuid

namespace time

/-- Days before each month in a non-leap year (`daysBefore`), January first, with the
length of the whole year as the last entry. -/
def daysBefore : List Nat :=
  [0, 31, 59, 90, 120, 151, 181, 212, 243, 273, 304, 334, 365]

/-- Function `isLeap` of the Go time package: the Gregorian leap-year rule. -/
def isLeap (year : Nat) : Bool :=
  year % 4 == 0 && (year % 100 != 0 || year % 400 == 0)

/-- Days between 0001-01-01 and 1970-01-01. -/
def unixEpochDays : Nat := 719162

/-- The year-cutting part of `absDate`: from the number of days since 0001-01-01 to the
year and the zero-based day within it.  (Go counts from a year that is 1 modulo 400 far in
the past; counting from year 1 drops whole 400-year cycles.) -/
def yearDay (d : Nat) : Nat × Nat :=
  let n400 := d / 146097
  let d1 := d - 146097 * n400
  let n100 := d1 / 36524
  let n100 := n100 - (n100 >>> 2)
  let d2 := d1 - 36524 * n100
  let n4 := d2 / 1461
  let d3 := d2 - 1461 * n4
  let n1 := d3 / 365
  let n1 := n1 - (n1 >>> 2)
  (400 * n400 + 100 * n100 + 4 * n4 + n1 + 1, d3 - 365 * n1)

/-- The month/day part of `absDate`: from a zero-based day of the year to (month, day),
both one-based. -/
def monthDay (leap : Bool) (yday : Nat) : Nat × Nat :=
  if leap && yday == 31 + 29 - 1 then (2, 29)
  else
    let day := if leap && yday > 31 + 29 - 1 then yday - 1 else yday
    let month := day / 31
    let endd := daysBefore.getD (month + 1) 0
    if day ≥ endd then (month + 2, day - endd + 1)
    else (month + 1, day - daysBefore.getD month 0 + 1)

/-- Decimal digit as a byte: `'0' + n`. -/
def digit (n : Nat) : Char :=
  Char.ofNat (48 + n % 10)

/-- The digits of `u`, most significant first, in front of `acc` (`fuel` bounds the loop). -/
def digitsLoop : Nat → Nat → List Char → List Char
  | 0, _, acc => acc
  | fuel + 1, u, acc =>
    if u < 10 then digit u :: acc
    else digitsLoop fuel (u / 10) (digit (u % 10) :: acc)

/-- Function `appendInt(b, x, width)` of the Go time package, for `x ≥ 0`: decimal, left-padded with zeros to `width`. -/
def appendInt (x width : Nat) : List Char :=
  let ds := digitsLoop (x + 1) x []
  List.replicate (width - ds.length) '0' ++ ds

/-- The call `t.UTC().Format(time.RFC3339)` for a wall-clock reading of `t` nanoseconds after
1970-01-01T00:00:00Z.  The layout `2006-01-02T15:04:05Z07:00` has no fractional seconds
and prints the zero offset of UTC as `Z`. -/
def FormatRFC3339 (t : Nat) : String :=
  let sec := t / 1000000000
  let yd := yearDay (sec / 86400 + unixEpochDays)
  let md := monthDay (isLeap yd.1) yd.2
  let s := sec % 86400
  let hour := s / 3600
  let s := s - hour * 3600
  let min := s / 60
  let s := s - min * 60
  String.mk (appendInt yd.1 4 ++ ['-'] ++ appendInt md.1 2 ++ ['-'] ++ appendInt md.2 2 ++ ['T'] ++
    appendInt hour 2 ++ [':'] ++ appendInt min 2 ++ [':'] ++ appendInt s 2 ++ ['Z'])

/-! ### Reading a timestamp back

The instant an RFC 3339 timestamp denotes, for the form `YYYY-MM-DDTHH:MM:SSZ` that
`FormatRFC3339` writes (a four-digit year, UTC written as `Z`, no fractional seconds). -/

/-- The value of a decimal digit byte. -/
def digitValue (c : Char) : Option Nat :=
  if 48 ≤ c.toNat ∧ c.toNat ≤ 57 then some (c.toNat - 48) else none

/-- The number written by a run of decimal digits. -/
def number (cs : List Char) : Option Nat :=
  cs.foldl (fun acc c =>
    match acc, digitValue c with
    | some n, some k => some (10 * n + k)
    | _, _ => none) (some 0)

/-- Function `daysIn(month, year)` of the Go time package. -/
def daysIn (month year : Nat) : Nat :=
  if month = 2 ∧ isLeap year = true then 29
  else daysBefore.getD month 0 - daysBefore.getD (month - 1) 0

/-- Function `daysSinceEpoch(year)` of the Go time package, counting from January 1 of the year -399 (a year that is 1 modulo
400, as is the year Go counts from) to January 1 of `year`. -/
def daysSinceEpoch (year : Nat) : Nat :=
  let y := year + 399
  let n400 := y / 400
  let y := y - 400 * n400
  let n100 := y / 100
  let y := y - 100 * n100
  let n4 := y / 4
  let y := y - 4 * n4
  146097 * n400 + 36524 * n100 + 1461 * n4 + 365 * y

/-- The call `time.Date(year, month, day, hour, min, sec, 0, time.UTC).Unix()`: seconds since
1970-01-01T00:00:00Z. -/
def unixDate (year month day hour min sec : Nat) : Int :=
  let d := daysSinceEpoch year + daysBefore.getD (month - 1) 0 +
    (if isLeap year && decide (month ≥ 3) then 1 else 0) + (day - 1)
  ((d * 86400 + hour * 3600 + min * 60 + sec : Nat) : Int) - (146097 + 719162) * 86400

/-- The instant a timestamp of the form `YYYY-MM-DDTHH:MM:SSZ` denotes, in seconds since
1970-01-01T00:00:00Z; `none` when the text is not a valid timestamp of that form. -/
def ParseRFC3339 (s : String) : Option Int :=
  match s.data with
  | [y1, y2, y3, y4, c1, m1, m2, c2, d1, d2, ct, h1, h2, c3, n1, n2, c4, s1, s2, cz] =>
    if c1 = '-' ∧ c2 = '-' ∧ ct = 'T' ∧ c3 = ':' ∧ c4 = ':' ∧ cz = 'Z' then
      match number [y1, y2, y3, y4], number [m1, m2], number [d1, d2],
            number [h1, h2], number [n1, n2], number [s1, s2] with
      | some year, some month, some day, some hour, some min, some sec =>
        if 1 ≤ month ∧ month ≤ 12 ∧ 1 ≤ day ∧ day ≤ daysIn month year ∧
            hour < 24 ∧ min < 60 ∧ sec < 60 then
          some (unixDate year month day hour min sec)
        else none
      | _, _, _, _, _, _ => none
    else none
  | _ => none

end time

namespace messaging

/-- The constant `const serviceName = "was-8-go"`. -/
def serviceName : String := "was-8-go"

/-- The Go struct `WrappedMessage`; `π` is the type of the caller's payload. -/
structure WrappedMessage (π : Type) where
  ID : String
  Source : String
  Timestamp : String
  Payload : π
deriving DecidableEq

/-- The struct `kafka.Header`. -/
structure Header where
  Key : String
  Value : String
deriving DecidableEq, Repr

/-- The fields of `kafka.Message` that `Send` fills in. -/
structure Message where
  Topic : String
  Key : String
  Value : String
  Headers : List Header
deriving DecidableEq, Repr

/-- The collaborators of `Send`, over a world state `ω`:
`RandRead` is `io.ReadFull(rander, uuid[:])` inside `uuid.New`, `Now` is `time.Now()` (a
wall-clock reading in nanoseconds since 1970-01-01T00:00:00Z), `Marshal` is `json.Marshal`
(it runs the payload's own encoding methods, hence the world), and `WriteMessages` is
`writer.WriteMessages(ctx, msg)` under its ten-second deadline. -/
structure Runtime (ω π : Type) where
  RandRead : ω → Except GoError uuid.UUID × ω
  Now : ω → Nat × ω
  Marshal : WrappedMessage π → ω → Except GoError String × ω
  WriteMessages : Message → ω → Option GoError × ω

/-- The collaborators run on a wall clock that goes forward: `clock e` is the instant at which
the world is in state `e`, no call sets it back, and `Now` reads an instant between the one at
which it is called and the one at which it returns. -/
structure Runtime.Timed {ω π : Type} (rt : Runtime ω π) (clock : ω → Nat) : Prop where
  randRead : ∀ e, clock e ≤ clock (rt.RandRead e).2
  now : ∀ e, clock e ≤ (rt.Now e).1 ∧ (rt.Now e).1 ≤ clock (rt.Now e).2
  marshal : ∀ v e, clock e ≤ clock (rt.Marshal v e).2
  write : ∀ m e, clock e ≤ clock (rt.WriteMessages m e).2

/-- A call made on one of the collaborators of `Send`. -/
inductive Event (π : Type)
  | randRead
  | now
  | marshal (v : WrappedMessage π)
  | write (msg : Message)

/-- The same collaborators, additionally keeping the list of calls made on them. -/
def Runtime.recording {ω π : Type} (rt : Runtime ω π) : Runtime (ω × List (Event π)) π where
  RandRead := fun s => ((rt.RandRead s.1).1, ((rt.RandRead s.1).2, s.2 ++ [Event.randRead]))
  Now := fun s => ((rt.Now s.1).1, ((rt.Now s.1).2, s.2 ++ [Event.now]))
  Marshal := fun v s => ((rt.Marshal v s.1).1, ((rt.Marshal v s.1).2, s.2 ++ [Event.marshal v]))
  WriteMessages := fun m s =>
    ((rt.WriteMessages m s.1).1, ((rt.WriteMessages m s.1).2, s.2 ++ [Event.write m]))

/-- The messages handed to the transport, in order. -/
def writes {π : Type} : List (Event π) → List Message
  | [] => []
  | Event.write m :: es => m :: writes es
  | _ :: es => writes es

/-- The envelopes handed to the serializer, in order. -/
def marshals {π : Type} : List (Event π) → List (WrappedMessage π)
  | [] => []
  | Event.marshal v :: es => v :: marshals es
  | _ :: es => marshals es

/-- State threaded through the publisher: the collaborators' world and the logger output. -/
structure World (ω : Type) where
  env : ω
  log : List LogEntry

/-- The Go struct `MessageService` (`writer` is the transport behind `rt.WriteMessages`, the
`logger` field is the `log` of the world). -/
structure MessageService (ω π : Type) where
  rt : Runtime ω π

/-- Go method `func (s *MessageService) Send(topic, key string, message interface{}) (string, error)`.
`uuid.New()` is `Must(NewRandom())`: it panics when the entropy source fails. -/
def MessageService.Send {ω π : Type} (s : MessageService ω π) (topic key : String) (message : π)
    (w : World ω) : Outcome (String × Option GoError) × World ω :=
  let r0 := s.rt.RandRead w.env
  match r0.1 with
  | .error e => (Outcome.panicked e, { env := r0.2, log := w.log })
  | .ok raw =>
    let messageID := (uuid.stamp raw).String
    let messageKey := if key = "" then messageID else key
    let r1 := s.rt.Now r0.2
    let wrapped : WrappedMessage π :=
      { ID := messageID
        Source := serviceName
        Timestamp := time.FormatRFC3339 r1.1
        Payload := message }
    let r2 := s.rt.Marshal wrapped r1.2
    match r2.1 with
    | .error err =>
      (Outcome.returned ("", some err),
       { env := r2.2,
         log := w.log ++ [⟨Level.Error, "Failed to marshal message: %v", [LogArg.str err.Error]⟩] })
    | .ok value =>
      let r3 := s.rt.WriteMessages
        { Topic := topic
          Key := messageKey
          Value := value
          Headers := [⟨"content-type", "application/json"⟩,
                      ⟨"message-id", messageID⟩,
                      ⟨"source", serviceName⟩] } r2.2
      match r3.1 with
      | some err =>
        (Outcome.returned ("", some err),
         { env := r3.2,
           log := w.log ++ [⟨Level.Error, "Failed to send message: id=%s, topic=%s, error=%v",
                            [LogArg.str messageID, LogArg.str topic, LogArg.str err.Error]⟩] })
      | none =>
        (Outcome.returned (messageID, none),
         { env := r3.2,
           log := w.log ++ [⟨Level.Info, "Message sent: id=%s, topic=%s",
                            [LogArg.str messageID, LogArg.str topic]⟩] })

/-! ### Health probe -/

/-- The fields of `kafka.Partition` the probe looks at. -/
structure Partition where
  Topic : String
  ID : Int
deriving DecidableEq, Repr

/-- The collaborators of `HealthCheck`, over a world state `ω` and connections `κ`:
`Getenv` is `os.Getenv`, `Dial` is `kafka.Dial(network, address)`, `ReadPartitions` is
`conn.ReadPartitions()`, `Close` is the deferred `conn.Close()`. -/
structure Broker (ω κ : Type) where
  Getenv : String → ω → String
  Dial : String → String → ω → Except GoError κ × ω
  ReadPartitions : κ → ω → Except GoError (List Partition) × ω
  Close : κ → ω → ω

/-- A `kafka.Dial` call: network and address. -/
structure DialCall where
  network : String
  address : String
deriving DecidableEq, Repr

/-- The same collaborators, additionally keeping the list of dials made. -/
def Broker.recording {ω κ : Type} (b : Broker ω κ) : Broker (ω × List DialCall) κ where
  Getenv := fun k s => b.Getenv k s.1
  Dial := fun n a s => ((b.Dial n a s.1).1, ((b.Dial n a s.1).2, s.2 ++ [⟨n, a⟩]))
  ReadPartitions := fun c s => ((b.ReadPartitions c s.1).1, ((b.ReadPartitions c s.1).2, s.2))
  Close := fun c s => (b.Close c s.1, s.2)

/-- A Go `map[string]bool`, as the list of its entries (keys pairwise distinct). -/
abbrev TopicSet := List (String × Bool)

/-- The assignment `m[k] = v`: overwrite the entry of `k`, or add one. -/
def TopicSet.set : TopicSet → String → Bool → TopicSet
  | [], k, v => [(k, v)]
  | (k', v') :: m, k, v => if k' = k then (k, v) :: m else (k', v') :: TopicSet.set m k v

/-- The loop `for _, p := range partitions { topics[p.Topic] = true }` on `topics`. -/
def collectTopics (partitions : List Partition) (topics : TopicSet) : TopicSet :=
  partitions.foldl (fun m p => TopicSet.set m p.Topic true) topics

/-- A value stored in the `map[string]interface{}` a health probe returns. -/
inductive Value
  | str (s : String)
  | int (n : Int)
deriving DecidableEq, Repr

/-- The built-in broker list used when `KAFKA_BROKERS` is unset. -/
def defaultBrokers : String := "kafka-1:9092,kafka-2:9092,kafka-3:9092"

/-- The broker list `HealthCheck` works with: `strings.Split` of the configured list, or of the
built-in one when the variable is empty. -/
def brokerList (configured : String) : List String :=
  strings.Split (if configured = "" then defaultBrokers else configured) ','

/-- Go method `func (s *MessageService) HealthCheck() map[string]interface{}`.
Indexing `brokerList[0]` panics on an empty slice. -/
def MessageService.HealthCheck {ω κ : Type} (b : Broker ω κ) (env : ω) :
    Outcome (List (String × Value)) × ω :=
  match brokerList (b.Getenv "KAFKA_BROKERS" env) with
  | [] => (Outcome.panicked ⟨"index out of range [0] with length 0"⟩, env)
  | first :: _ =>
    let r0 := b.Dial "tcp" first env
    match r0.1 with
    | .error err =>
      (Outcome.returned [("status", Value.str "DOWN"), ("error", Value.str err.Error)], r0.2)
    | .ok conn =>
      let r1 := b.ReadPartitions conn r0.2
      match r1.1 with
      | .error err =>
        (Outcome.returned [("status", Value.str "DOWN"), ("error", Value.str err.Error)],
         b.Close conn r1.2)
      | .ok partitions =>
        let topics := collectTopics partitions []
        (Outcome.returned [("status", Value.str "UP"), ("topics_count", Value.int topics.length)],
         b.Close conn r1.2)

/-! ### The writer

`NewMessageService` builds the `kafka.Writer` that `Send` writes through.  One call of
`WriteMessages` on it is not one request on the wire: the writer collects messages into
batches and sends each batch up to `MaxAttempts` times. -/

/-- How a produce request failed: the error, and whether the writer takes it for a passing
condition worth another attempt (`isTemporary(err) || isTransientNetworkError(err)`). -/
structure ProduceError where
  err : GoError
  temporary : Bool
deriving DecidableEq, Repr

/-- The balancers of kafka-go the writer can be given. -/
inductive Balancer
  | RoundRobin
  | LeastBytes
deriving DecidableEq, Repr

/-- The fields of `kafka.Writer` that `NewMessageService` sets, together with `MaxAttempts`,
which it leaves at its zero value.  `BatchTimeout` is in nanoseconds. -/
structure Writer where
  Addr : List String
  Balancer : Balancer
  BatchSize : Nat
  BatchTimeout : Nat
  RequiredAcks : Int
  Async : Bool
  MaxAttempts : Nat
deriving DecidableEq, Repr

/-- The constant `kafka.RequireAll`. -/
def RequireAll : Int := -1

/-- Method `maxAttempts` of `kafka.Writer`: the configured number, ten when none is set. -/
def Writer.maxAttempts (w : Writer) : Nat :=
  if w.MaxAttempts > 0 then w.MaxAttempts else 10

/-- The attempt loop of `writeBatch` in kafka-go: the batch is produced again after every
temporary failure until an attempt succeeds, a failure is not temporary, or the attempts
are used up; the result is the error of the last attempt.  `produce` is one produce request
on the wire. -/
def Writer.writeBatch {ω : Type} (produce : List Message → ω → Option ProduceError × ω)
    (batch : List Message) : Nat → Option GoError → ω → Option GoError × ω
  | 0, last, e => (last, e)
  | n + 1, _, e =>
    let r := produce batch e
    match r.1 with
    | none => (none, r.2)
    | some pe =>
      if pe.temporary then Writer.writeBatch produce batch n (some pe.err) r.2
      else (some pe.err, r.2)

/-- Method `WriteMessages` of a synchronous `kafka.Writer` for one message, with no other
producer writing at the same time: the message makes a batch of its own, which is sent by
the attempt loop once the batch timeout has passed. -/
def Writer.WriteMessages {ω : Type} (w : Writer)
    (produce : List Message → ω → Option ProduceError × ω) (msg : Message) (e : ω) :
    Option GoError × ω :=
  Writer.writeBatch produce [msg] w.maxAttempts none e

/-- What `NewMessageService` and the service it builds depend on: the collaborators of `Send`,
with the transport one level down, at the produce request. -/
structure Deps (ω π : Type) where
  RandRead : ω → Except GoError uuid.UUID × ω
  Now : ω → Nat × ω
  Marshal : WrappedMessage π → ω → Except GoError String × ω
  Produce : List Message → ω → Option ProduceError × ω

/-- The same dependencies, additionally keeping the list of produce requests made. -/
def Deps.recording {ω π : Type} (d : Deps ω π) : Deps (ω × List (List Message)) π where
  RandRead := fun s => ((d.RandRead s.1).1, ((d.RandRead s.1).2, s.2))
  Now := fun s => ((d.Now s.1).1, ((d.Now s.1).2, s.2))
  Marshal := fun v s => ((d.Marshal v s.1).1, ((d.Marshal v s.1).2, s.2))
  Produce := fun b s => ((d.Produce b s.1).1, ((d.Produce b s.1).2, s.2 ++ [b]))

/-- The `kafka.Writer` literal of `NewMessageService`, for the value `configured` of
`KAFKA_BROKERS`. -/
def NewMessageService.writer (configured : String) : Writer :=
  { Addr := brokerList configured
    Balancer := Balancer.LeastBytes
    BatchSize := 100
    BatchTimeout := 10 * 1000000
    RequiredAcks := RequireAll
    Async := false
    MaxAttempts := 0 }

/-- Go function `func NewMessageService() *MessageService`, for the value `configured` of
`KAFKA_BROKERS`: the service writing through the writer above, and the line it logs. -/
def NewMessageService {ω π : Type} (d : Deps ω π) (configured : String) :
    MessageService ω π × List LogEntry :=
  (⟨{ RandRead := d.RandRead
      Now := d.Now
      Marshal := d.Marshal
      WriteMessages := (NewMessageService.writer configured).WriteMessages d.Produce }⟩,
   [⟨Level.Info, "Kafka writer initialized with brokers: %v",
     [LogArg.str ("[" ++ " ".intercalate (brokerList configured) ++ "]")]⟩])

end messaging

namespace messaging

/-! ### A healthy single-broker test double -/

/-- World of the test double: the wall clock (nanoseconds since 1970), a counter feeding the
entropy source, and the messages the broker has accepted. -/
structure TestWorld where
  clock : Nat
  seed : Nat
  accepted : List Message

/-- JSON text of an envelope whose payload is a flat record of strings (no escaping: the test
payloads contain no special characters). -/
def renderEnvelope (v : WrappedMessage (List (String × String))) : String :=
  "\x7b\"id\":\"" ++ v.ID ++ "\",\"source\":\"" ++ v.Source ++ "\",\"timestamp\":\"" ++
    v.Timestamp ++ "\",\"payload\":\x7b" ++
    String.intercalate "," (v.Payload.map fun kv => "\"" ++ kv.1 ++ "\":\"" ++ kv.2 ++ "\"") ++
    "\x7d\x7d"

/-- The collaborators of `Send` against a healthy single-broker test cluster: every call
succeeds and takes some time; the entropy source hands out consecutive byte values. -/
def testRuntime : Runtime TestWorld (List (String × String)) where
  RandRead := fun w =>
    (.ok (fun i => Fin.ofNat (w.seed + i.val)), { w with seed := w.seed + 16, clock := w.clock + 1000 })
  Now := fun w => (w.clock + 100000000, { w with clock := w.clock + 100000000 })
  Marshal := fun v w => (.ok (renderEnvelope v), { w with clock := w.clock + 1000 })
  WriteMessages := fun m w =>
    (none, { w with accepted := w.accepted ++ [m], clock := w.clock + 100000000 })

/-- The test double started half a second past 2025-11-04T13:20:00Z. -/
def testWorld : TestWorld := ⟨1762262400500000000, 0, []⟩

/-- The message the test double is handed for Send("events", "", {"type":"click"}) in
`testWorld`. -/
def testMessage : Message :=
  { Topic := "events"
    Key := "00010203-0405-4607-8809-0a0b0c0d0e0f"
    Value := "\x7b\"id\":\"00010203-0405-4607-8809-0a0b0c0d0e0f\",\"source\":\"was-8-go\"," ++
      "\"timestamp\":\"2025-11-04T13:20:00Z\",\"payload\":\x7b\"type\":\"click\"\x7d\x7d"
    Headers := [⟨"content-type", "application/json"⟩,
                ⟨"message-id", "00010203-0405-4607-8809-0a0b0c0d0e0f"⟩,
                ⟨"source", "was-8-go"⟩] }

/-- The test cluster with a payload the serializer rejects. -/
def unencodableRuntime : Runtime TestWorld (List (String × String)) :=
  { testRuntime with
    Marshal := fun _ w => (.error ⟨"json: unsupported value"⟩, { w with clock := w.clock + 1000 }) }

/-- The test cluster with its broker down: every write times out. -/
def brokerDownRuntime : Runtime TestWorld (List (String × String)) :=
  { testRuntime with
    WriteMessages := fun _ w =>
      (some ⟨"context deadline exceeded"⟩, { w with clock := w.clock + 10000000000 }) }

/-- The test cluster with a partition that has no leader: every produce request is answered
with a temporary error after 100 ms. -/
def leaderlessDeps : Deps TestWorld (List (String × String)) where
  RandRead := testRuntime.RandRead
  Now := testRuntime.Now
  Marshal := testRuntime.Marshal
  Produce := fun _ w =>
    (some ⟨⟨"[5] Leader Not Available"⟩, true⟩, { w with clock := w.clock + 100000000 })

/-- A reachable test broker for the health probe: `KAFKA_BROKERS` holds `configured`, only
"broker-a:9092" answers a dial, and the cluster has two topics in three partitions. -/
def testBroker (configured : String) : Broker Unit Unit where
  Getenv := fun k _ => if k = "KAFKA_BROKERS" then configured else ""
  Dial := fun _ a _ =>
    if a = "broker-a:9092" then (.ok (), ()) else (.error ⟨"dial tcp: no such host"⟩, ())
  ReadPartitions := fun _ _ => (.ok [⟨"events", 0⟩, ⟨"events", 1⟩, ⟨"audit", 0⟩], ())
  Close := fun _ _ => ()

/-- The same test cluster with a broken entropy source: every read hands out sixteen zero
bytes. -/
def stuckRuntime : Runtime TestWorld (List (String × String)) :=
  { testRuntime with RandRead := fun w => (.ok (fun _ => 0), { w with clock := w.clock + 1000 }) }

end messaging

/-! ## Cache adapter: theorems -/

namespace cache

/-- Recording the calls changes nothing else: `Get`, `Set` and `Delete` over the recording
client return what they return over the client itself, and leave the same backend and log. -/
theorem recording_faithful {σ : Type} (c : ClusterClient σ) (key value : String) (ttl : Int)
    (b : σ) (calls : List Call) (log : List LogEntry) :
    (((CacheService.mk c.recording).Get key ⟨(b, calls), log⟩).1
        = ((CacheService.mk c).Get key ⟨b, log⟩).1 ∧
      ((CacheService.mk c.recording).Get key ⟨(b, calls), log⟩).2.backend.1
        = ((CacheService.mk c).Get key ⟨b, log⟩).2.backend ∧
      ((CacheService.mk c.recording).Get key ⟨(b, calls), log⟩).2.log
        = ((CacheService.mk c).Get key ⟨b, log⟩).2.log) ∧
    (((CacheService.mk c.recording).Set key value ttl ⟨(b, calls), log⟩).1
        = ((CacheService.mk c).Set key value ttl ⟨b, log⟩).1 ∧
      ((CacheService.mk c.recording).Set key value ttl ⟨(b, calls), log⟩).2.backend.1
        = ((CacheService.mk c).Set key value ttl ⟨b, log⟩).2.backend ∧
      ((CacheService.mk c.recording).Set key value ttl ⟨(b, calls), log⟩).2.log
        = ((CacheService.mk c).Set key value ttl ⟨b, log⟩).2.log) ∧
    (((CacheService.mk c.recording).Delete key ⟨(b, calls), log⟩).1
        = ((CacheService.mk c).Delete key ⟨b, log⟩).1 ∧
      ((CacheService.mk c.recording).Delete key ⟨(b, calls), log⟩).2.backend.1
        = ((CacheService.mk c).Delete key ⟨b, log⟩).2.backend ∧
      ((CacheService.mk c.recording).Delete key ⟨(b, calls), log⟩).2.log
        = ((CacheService.mk c).Delete key ⟨b, log⟩).2.log) := by
  refine ⟨?_, ?_, ?_⟩
  · unfold CacheService.Get ClusterClient.recording
    dsimp only
    rcases h : (c.Get key b).1.2 with _ | e
    · simp
    · by_cases he : e = RedisError.Nil
      · subst he; simp
      · simp [he]
  · unfold CacheService.Set ClusterClient.recording
    dsimp only
    rcases h : (c.Set key value ttl b).1 with _ | e <;> simp
  · unfold CacheService.Delete ClusterClient.recording
    dsimp only
    rcases h : (c.Del key b).1.2 with _ | e <;> simp

end cache


namespace cache

/-- C1: for every key and every outcome of the backend GET, `Get` makes exactly that one GET
call, returns `(value, true)` exactly when the call returned no error (an empty value included)
and `("", false)` for `redis.Nil` and for any other error alike; its result type has no error
component, so no error ever reaches the caller. -/
theorem Get_outcome {σ : Type} (c : ClusterClient σ) (key : String) (b : σ)
    (calls : List Call) (log : List LogEntry) :
    ((CacheService.mk c.recording).Get key ⟨(b, calls), log⟩).2.backend
        = ((c.Get key b).2, calls ++ [Call.get key]) ∧
    ((c.Get key b).1.2 = none →
      ((CacheService.mk c.recording).Get key ⟨(b, calls), log⟩).1 = ((c.Get key b).1.1, true)) ∧
    ((c.Get key b).1.2 = some RedisError.Nil →
      ((CacheService.mk c.recording).Get key ⟨(b, calls), log⟩).1 = ("", false)) ∧
    (∀ e, (c.Get key b).1.2 = some e →
      ((CacheService.mk c.recording).Get key ⟨(b, calls), log⟩).1 = ("", false)) ∧
    (((CacheService.mk c.recording).Get key ⟨(b, calls), log⟩).1.2 = true ↔
      (c.Get key b).1.2 = none) := by
  unfold CacheService.Get ClusterClient.recording
  dsimp only
  rcases h : (c.Get key b).1.2 with _ | e
  · simp
  · by_cases he : e = RedisError.Nil
    · subst he; simp
    · simp [he]

/-- C2: for every key, value and ttl (zero included), `Set` makes exactly one backend SET call,
with that key, value and ttl unchanged, and returns exactly the error that call produced
(`none` when it succeeded). -/
theorem Set_passthrough {σ : Type} (c : ClusterClient σ) (key value : String) (ttl : Int) (b : σ)
    (calls : List Call) (log : List LogEntry) :
    ((CacheService.mk c.recording).Set key value ttl ⟨(b, calls), log⟩).2.backend
        = ((c.Set key value ttl b).2, calls ++ [Call.set key value ttl]) ∧
    ((CacheService.mk c.recording).Set key value ttl ⟨(b, calls), log⟩).1
        = (c.Set key value ttl b).1 := by
  unfold CacheService.Set ClusterClient.recording
  dsimp only
  rcases h : (c.Set key value ttl b).1 with _ | e <;> simp

/-- C3: for every key and every outcome of the backend DEL, `Delete` makes exactly that one DEL
call and returns `true` if and only if the call returned no error and a removed-entry count
greater than zero; on any backend error it returns `false` (its result type carries no error). -/
theorem Delete_outcome {σ : Type} (c : ClusterClient σ) (key : String) (b : σ)
    (calls : List Call) (log : List LogEntry) :
    ((CacheService.mk c.recording).Delete key ⟨(b, calls), log⟩).2.backend
        = ((c.Del key b).2, calls ++ [Call.del key]) ∧
    (((CacheService.mk c.recording).Delete key ⟨(b, calls), log⟩).1 = true ↔
      ((c.Del key b).1.2 = none ∧ (c.Del key b).1.1 > 0)) ∧
    (∀ e, (c.Del key b).1.2 = some e →
      ((CacheService.mk c.recording).Delete key ⟨(b, calls), log⟩).1 = false) := by
  unfold CacheService.Delete ClusterClient.recording
  dsimp only
  rcases h : (c.Del key b).1.2 with _ | e <;> simp

/-- A key just written is live in the store. -/
theorem lookup_after_set (m : MemStore) (key value : String) (ttl : Int) :
    ∃ d, ((memClient.Set key value ttl m).2).lookup key = some ⟨value, d⟩ := by
  have hdl : ∀ x, m.deadlineFor key ttl = some x → m.now < x := by
    intro x hx
    unfold MemStore.deadlineFor at hx
    by_cases h1 : ttl > 0
    · simp only [h1, if_true, Option.some.injEq] at hx
      omega
    · by_cases h2 : ttl = KeepTTL
      · rw [if_neg h1, if_pos h2] at hx
        unfold MemStore.lookup at hx
        rcases h3 : m.entries key with _ | e
        · simp [h3] at hx
        · rcases h4 : e.deadline with _ | d
          · simp [h3, h4] at hx
          · by_cases h5 : m.now < d
            · simp [h3, h4, h5] at hx
              omega
            · simp [h3, h4, h5] at hx
      · simp [h1, h2] at hx
  refine ⟨m.deadlineFor key ttl, ?_⟩
  unfold memClient MemStore.lookup
  dsimp only
  rcases h : m.deadlineFor key ttl with _ | x
  · simp
  · simp [hdl x h]

/-- A key just deleted is absent from the store. -/
theorem lookup_after_del (m : MemStore) (key : String) :
    ((memClient.Del key m).2).lookup key = none := by
  have h : ((memClient.Del key m).2).entries key = none := by
    unfold memClient
    dsimp only
    rcases h : m.lookup key with _ | e <;> simp
  unfold MemStore.lookup
  rw [h]

/-- On the in-memory service `Get` reads the live entry. -/
theorem memGet_eq (m : MemStore) (key : String) (log : List LogEntry) :
    (memService.Get key ⟨m, log⟩).1 =
      match m.lookup key with
      | some e => (e.value, true)
      | none => ("", false) := by
  unfold memService CacheService.Get memClient
  dsimp only
  rcases h : m.lookup key with _ | e <;> simp

/-- C4: against the in-memory single-node backend, for every store, key, value and ttl:
`Set` returns nil and an immediate `Get` returns `(value, true)`; `Delete` returns `true`
exactly when the key exists, and a `Get` after it returns `("", false)`; in particular
Set, Get, Delete, Get yields nil, `(value, true)`, `true`, `("", false)`. -/
theorem mem_roundtrip (m : MemStore) (key value : String) (ttl : Int) (log : List LogEntry) :
    (memService.Set key value ttl ⟨m, log⟩).1 = none ∧
    (memService.Get key (memService.Set key value ttl ⟨m, log⟩).2).1 = (value, true) ∧
    ((memService.Delete key ⟨m, log⟩).1 = true ↔ (m.lookup key).isSome) ∧
    (memService.Get key (memService.Delete key ⟨m, log⟩).2).1 = ("", false) ∧
    (memService.Delete key
      (memService.Get key (memService.Set key value ttl ⟨m, log⟩).2).2).1 = true ∧
    (memService.Get key (memService.Delete key
      (memService.Get key (memService.Set key value ttl ⟨m, log⟩).2).2).2).1 = ("", false) := by
  have hset : ∀ (w : World MemStore),
      (memService.Set key value ttl w).1 = none ∧
      (memService.Set key value ttl w).2.backend = (memClient.Set key value ttl w.backend).2 := by
    intro w
    unfold memService CacheService.Set memClient
    simp
  have hget : ∀ (w : World MemStore), (memService.Get key w).2.backend = w.backend := by
    intro w
    unfold memService CacheService.Get memClient
    dsimp only
    rcases h : w.backend.lookup key with _ | e <;> simp
  have hdel : ∀ (w : World MemStore),
      ((memService.Delete key w).1 = true ↔ (w.backend.lookup key).isSome) ∧
      (memService.Delete key w).2.backend = (memClient.Del key w.backend).2 := by
    intro w
    unfold memService CacheService.Delete memClient
    dsimp only
    rcases h : w.backend.lookup key with _ | e <;> simp
  have hgetw : ∀ (w : World MemStore), (memService.Get key w).1 =
      match w.backend.lookup key with
      | some e => (e.value, true)
      | none => ("", false) := fun w => memGet_eq w.backend key w.log
  obtain ⟨d, hd⟩ := lookup_after_set m key value ttl
  refine ⟨(hset _).1, ?_, (hdel ⟨m, log⟩).1, ?_, ?_, ?_⟩
  · rw [hgetw, (hset _).2, hd]
  · rw [hgetw, (hdel _).2, lookup_after_del]
  · rw [(hdel _).1, hget, (hset _).2, hd]; rfl
  · rw [hgetw, (hdel _).2, lookup_after_del]

/-- C4, the scenario of the specification: Set("user:42", "{\"name\":\"a\"}", 3600s), Get,
Delete, Get on an empty store. -/
theorem mem_roundtrip_scenario :
    (memService.Set "user:42" "\x7b\"name\":\"a\"\x7d" 3600000000000 ⟨MemStore.empty 0, []⟩).1
      = none ∧
    (memService.Get "user:42"
      (memService.Set "user:42" "\x7b\"name\":\"a\"\x7d" 3600000000000 ⟨MemStore.empty 0, []⟩).2).1
      = ("\x7b\"name\":\"a\"\x7d", true) ∧
    (memService.Delete "user:42" (memService.Get "user:42"
      (memService.Set "user:42" "\x7b\"name\":\"a\"\x7d" 3600000000000
        ⟨MemStore.empty 0, []⟩).2).2).1 = true ∧
    (memService.Get "user:42" (memService.Delete "user:42" (memService.Get "user:42"
      (memService.Set "user:42" "\x7b\"name\":\"a\"\x7d" 3600000000000
        ⟨MemStore.empty 0, []⟩).2).2).2).1 = ("", false) ∧
    (memService.Delete "user:42" ⟨MemStore.empty 0, []⟩).1 = false :=
  have h := mem_roundtrip (MemStore.empty 0) "user:42" "\x7b\"name\":\"a\"\x7d" 3600000000000 []
  ⟨h.1, h.2.1, h.2.2.2.2.1, h.2.2.2.2.2, by
    have h3 := h.2.2.1
    simp [MemStore.empty, MemStore.lookup] at h3
    exact h3⟩

end cache

/-! ## Event publisher: theorems -/

namespace messaging

/-- Recording the calls changes nothing else: `Send` over the recording collaborators returns
what it returns over the collaborators themselves, and leaves the same world and log. -/
theorem Send_recording_faithful {ω π : Type} (rt : Runtime ω π) (topic key : String)
    (message : π) (env : ω) (evs : List (Event π)) (log : List LogEntry) :
    ((MessageService.mk rt.recording).Send topic key message ⟨(env, evs), log⟩).1
      = ((MessageService.mk rt).Send topic key message ⟨env, log⟩).1 ∧
    ((MessageService.mk rt.recording).Send topic key message ⟨(env, evs), log⟩).2.env.1
      = ((MessageService.mk rt).Send topic key message ⟨env, log⟩).2.env ∧
    ((MessageService.mk rt.recording).Send topic key message ⟨(env, evs), log⟩).2.log
      = ((MessageService.mk rt).Send topic key message ⟨env, log⟩).2.log := by
  unfold MessageService.Send Runtime.recording
  dsimp only
  rcases h0 : (rt.RandRead env).1 with e | raw
  · simp
  · dsimp only
    rcases h2 : (rt.Marshal ⟨(uuid.stamp raw).String, serviceName,
        time.FormatRFC3339 (rt.Now (rt.RandRead env).2).1, message⟩
        (rt.Now (rt.RandRead env).2).2).1 with err | value
    · simp
    · dsimp only
      rcases h3 : (rt.WriteMessages ⟨topic, if key = "" then (uuid.stamp raw).String else key,
          value, [⟨"content-type", "application/json"⟩,
                  ⟨"message-id", (uuid.stamp raw).String⟩,
                  ⟨"source", serviceName⟩]⟩
          (rt.Marshal ⟨(uuid.stamp raw).String, serviceName,
            time.FormatRFC3339 (rt.Now (rt.RandRead env).2).1, message⟩
            (rt.Now (rt.RandRead env).2).2).2).1 with _ | err
      · simp
      · simp

/-- Recording the dials changes nothing else in `HealthCheck`. -/
theorem HealthCheck_recording_faithful {ω κ : Type} (b : Broker ω κ) (env : ω)
    (dials : List DialCall) :
    (MessageService.HealthCheck b.recording (env, dials)).1.value?
      = (MessageService.HealthCheck b env).1.value? ∧
    (MessageService.HealthCheck b.recording (env, dials)).2.1
      = (MessageService.HealthCheck b env).2 := by
  unfold MessageService.HealthCheck
  have hg : b.recording.Getenv "KAFKA_BROKERS" (env, dials) = b.Getenv "KAFKA_BROKERS" env := rfl
  rw [hg]
  rcases brokerList (b.Getenv "KAFKA_BROKERS" env) with _ | ⟨first, rest⟩
  · simp [Outcome.value?]
  · unfold Broker.recording
    dsimp only
    rcases hd : (b.Dial "tcp" first env).1 with err | conn
    · simp [Outcome.value?]
    · dsimp only
      rcases hr : (b.ReadPartitions conn (b.Dial "tcp" first env).2).1 with err | ps
      · simp [Outcome.value?]
      · simp [Outcome.value?]

end messaging

namespace uuid

/-- The text form of a UUID is never empty (it has 36 bytes). -/
theorem String_ne_empty (u : UUID) : u.String ≠ "" := by
  intro h
  have h2 := congrArg String.length h
  simp [UUID.String, encodeHex, hexByte] at h2

end uuid

namespace messaging

/-- What one `Send` does, read off the recorded calls: either the entropy read fails and the
call panics before anything else happens, or one envelope is built and serialized, and then
at most one message is written. -/
theorem Send_cases {ω π : Type} (rt : Runtime ω π) (topic key : String) (message : π)
    (env : ω) (log : List LogEntry) :
    (∃ e, (rt.RandRead env).1 = .error e ∧
      ((MessageService.mk rt.recording).Send topic key message ⟨(env, []), log⟩).1
        = Outcome.panicked e ∧
      ((MessageService.mk rt.recording).Send topic key message ⟨(env, []), log⟩).2.env
        = ((rt.RandRead env).2, [Event.randRead])) ∨
    (∃ raw, (rt.RandRead env).1 = .ok raw ∧
      ∃ v : WrappedMessage π,
        v = ⟨(uuid.stamp raw).String, serviceName,
             time.FormatRFC3339 (rt.Now (rt.RandRead env).2).1, message⟩ ∧
        ((∃ err, (rt.Marshal v (rt.Now (rt.RandRead env).2).2).1 = .error err ∧
          ((MessageService.mk rt.recording).Send topic key message ⟨(env, []), log⟩).1
            = Outcome.returned ("", some err) ∧
          ((MessageService.mk rt.recording).Send topic key message ⟨(env, []), log⟩).2.env
            = ((rt.Marshal v (rt.Now (rt.RandRead env).2).2).2,
               [Event.randRead, Event.now, Event.marshal v])) ∨
         (∃ value, (rt.Marshal v (rt.Now (rt.RandRead env).2).2).1 = .ok value ∧
          ∃ msg : Message,
            msg = ⟨topic, if key = "" then (uuid.stamp raw).String else key, value,
                   [⟨"content-type", "application/json"⟩,
                    ⟨"message-id", (uuid.stamp raw).String⟩,
                    ⟨"source", serviceName⟩]⟩ ∧
            ((MessageService.mk rt.recording).Send topic key message ⟨(env, []), log⟩).2.env
              = ((rt.WriteMessages msg (rt.Marshal v (rt.Now (rt.RandRead env).2).2).2).2,
                 [Event.randRead, Event.now, Event.marshal v, Event.write msg]) ∧
            ((∃ err, (rt.WriteMessages msg (rt.Marshal v (rt.Now (rt.RandRead env).2).2).2).1
                  = some err ∧
                ((MessageService.mk rt.recording).Send topic key message ⟨(env, []), log⟩).1
                  = Outcome.returned ("", some err)) ∨
             ((rt.WriteMessages msg (rt.Marshal v (rt.Now (rt.RandRead env).2).2).2).1 = none ∧
                ((MessageService.mk rt.recording).Send topic key message ⟨(env, []), log⟩).1
                  = Outcome.returned ((uuid.stamp raw).String, none)))))) := by
  unfold MessageService.Send Runtime.recording
  dsimp only
  rcases h0 : (rt.RandRead env).1 with e | raw
  · left
    exact ⟨e, rfl, by simp⟩
  · right
    refine ⟨raw, rfl, _, rfl, ?_⟩
    dsimp only
    rcases h2 : (rt.Marshal ⟨(uuid.stamp raw).String, serviceName,
        time.FormatRFC3339 (rt.Now (rt.RandRead env).2).1, message⟩
        (rt.Now (rt.RandRead env).2).2).1 with err | value
    · left
      exact ⟨err, rfl, by simp, by simp⟩
    · right
      refine ⟨value, rfl, _, rfl, ?_⟩
      dsimp only
      rcases h3 : (rt.WriteMessages ⟨topic, if key = "" then (uuid.stamp raw).String else key,
          value, [⟨"content-type", "application/json"⟩,
                  ⟨"message-id", (uuid.stamp raw).String⟩,
                  ⟨"source", serviceName⟩]⟩
          (rt.Marshal ⟨(uuid.stamp raw).String, serviceName,
            time.FormatRFC3339 (rt.Now (rt.RandRead env).2).1, message⟩
            (rt.Now (rt.RandRead env).2).2).2).1 with _ | err
      · exact ⟨by simp, Or.inr ⟨rfl, by simp⟩⟩
      · exact ⟨by simp, Or.inl ⟨err, rfl, by simp⟩⟩

/-- C5: for every topic, key and payload, a message that `Send` hands to the transport carries
the caller's key when that key is non-empty and the generated identifier when it is empty; so
when a key-less `Send` succeeds, the wire key is the id it returns. -/
theorem Send_wire_key {ω π : Type} (rt : Runtime ω π) (topic key : String) (message : π)
    (env : ω) (log : List LogEntry) (m : Message)
    (hm : m ∈ writes
      ((MessageService.mk rt.recording).Send topic key message ⟨(env, []), log⟩).2.env.2) :
    (key ≠ "" → m.Key = key) ∧
    (key = "" → ∃ raw, (rt.RandRead env).1 = .ok raw ∧ m.Key = (uuid.stamp raw).String ∧
      (⟨"message-id", m.Key⟩ : Header) ∈ m.Headers) ∧
    (key = "" → ∀ id,
      ((MessageService.mk rt.recording).Send topic key message ⟨(env, []), log⟩).1
        = Outcome.returned (id, none) → m.Key = id) := by
  rcases Send_cases rt topic key message env log with
    ⟨e, _, _, htr⟩ | ⟨raw, hraw, v, _, ⟨err, _, _, htr⟩ | ⟨value, _, msg, hmsg, htr, hres⟩⟩
  · rw [htr] at hm; simp [writes] at hm
  · rw [htr] at hm; simp [writes] at hm
  · rw [htr] at hm
    simp only [writes, List.mem_singleton] at hm
    subst hm
    refine ⟨fun hk => by simp [hmsg, hk], fun hk => ⟨raw, hraw, by simp [hmsg, hk], by simp [hmsg, hk]⟩,
      fun hk id hid => ?_⟩
    rcases hres with ⟨err, _, hr⟩ | ⟨_, hr⟩
    · rw [hr] at hid; simp at hid
    · rw [hr] at hid
      simp only [Outcome.returned.injEq, Prod.mk.injEq, and_true] at hid
      simp [hmsg, hk, hid]

/-- C5, the scenario of the specification: Send("events", "", {"type":"click"}) against the
healthy test double writes one message, keyed by the id it returns. -/
theorem Send_wire_key_scenario :
    testMessage ∈ writes
      ((MessageService.mk testRuntime.recording).Send "events" "" [("type", "click")]
        ⟨(testWorld, []), []⟩).2.env.2 ∧
    ((MessageService.mk testRuntime.recording).Send "events" "" [("type", "click")]
        ⟨(testWorld, []), []⟩).1.value? = some ("00010203-0405-4607-8809-0a0b0c0d0e0f", none) ∧
    (∀ id, ((MessageService.mk testRuntime.recording).Send "events" "" [("type", "click")]
        ⟨(testWorld, []), []⟩).1 = Outcome.returned (id, none) → testMessage.Key = id) :=
  ⟨by decide, by decide,
   (Send_wire_key testRuntime "events" "" [("type", "click")] testWorld [] testMessage
     (by decide)).2.2 rfl⟩

/-- C6: for every `Send` that reaches the transport, the message body is the serialization of
an envelope whose source is "was-8-go" and whose payload is the caller's payload, the "source"
header carries "was-8-go", and the envelope id, the "message-id" header and (on success) the
returned id are one and the same generated identifier, which is not empty. -/
theorem Send_envelope {ω π : Type} (rt : Runtime ω π) (topic key : String) (message : π)
    (env : ω) (log : List LogEntry) (m : Message)
    (hm : m ∈ writes
      ((MessageService.mk rt.recording).Send topic key message ⟨(env, []), log⟩).2.env.2) :
    ∃ (raw : uuid.UUID) (v : WrappedMessage π),
      (rt.RandRead env).1 = .ok raw ∧
      marshals ((MessageService.mk rt.recording).Send topic key message ⟨(env, []), log⟩).2.env.2
        = [v] ∧
      (rt.Marshal v (rt.Now (rt.RandRead env).2).2).1 = .ok m.Value ∧
      v.Source = "was-8-go" ∧ v.Payload = message ∧
      (⟨"source", "was-8-go"⟩ : Header) ∈ m.Headers ∧
      v.ID = (uuid.stamp raw).String ∧
      (⟨"message-id", (uuid.stamp raw).String⟩ : Header) ∈ m.Headers ∧
      (uuid.stamp raw).String ≠ "" ∧
      (∀ id err, ((MessageService.mk rt.recording).Send topic key message ⟨(env, []), log⟩).1
        = Outcome.returned (id, err) → err = none → id = (uuid.stamp raw).String) := by
  rcases Send_cases rt topic key message env log with
    ⟨e, _, _, htr⟩ | ⟨raw, hraw, v, hv, ⟨err, _, _, htr⟩ | ⟨value, hval, msg, hmsg, htr, hres⟩⟩
  · rw [htr] at hm; simp [writes] at hm
  · rw [htr] at hm; simp [writes] at hm
  · rw [htr] at hm
    simp only [writes, List.mem_singleton] at hm
    subst hm
    refine ⟨raw, v, hraw, by rw [htr]; simp [marshals], by rw [hval, hmsg],
      by rw [hv]; rfl, by rw [hv], by rw [hmsg]; simp [serviceName], by rw [hv],
      by rw [hmsg]; simp, uuid.String_ne_empty _, ?_⟩
    intro id err hid herr
    rcases hres with ⟨err2, _, hr⟩ | ⟨_, hr⟩
    · rw [hr] at hid
      simp only [Outcome.returned.injEq, Prod.mk.injEq] at hid
      rw [herr] at hid
      simp at hid
    · rw [hr] at hid
      simp only [Outcome.returned.injEq, Prod.mk.injEq] at hid
      exact hid.1.symm

/-- C6 on the healthy test double: the one message written carries the envelope described. -/
theorem Send_envelope_scenario :
    testMessage ∈ writes
      ((MessageService.mk testRuntime.recording).Send "events" "" [("type", "click")]
        ⟨(testWorld, []), []⟩).2.env.2 ∧
    ∃ (raw : uuid.UUID) (v : WrappedMessage (List (String × String))),
      (testRuntime.RandRead testWorld).1 = .ok raw ∧
      marshals ((MessageService.mk testRuntime.recording).Send "events" "" [("type", "click")]
        ⟨(testWorld, []), []⟩).2.env.2 = [v] ∧
      (testRuntime.Marshal v (testRuntime.Now (testRuntime.RandRead testWorld).2).2).1
        = .ok testMessage.Value ∧
      v.Source = "was-8-go" ∧ v.Payload = [("type", "click")] ∧
      (⟨"source", "was-8-go"⟩ : Header) ∈ testMessage.Headers ∧
      v.ID = (uuid.stamp raw).String ∧
      (⟨"message-id", (uuid.stamp raw).String⟩ : Header) ∈ testMessage.Headers ∧
      (uuid.stamp raw).String ≠ "" ∧
      (∀ id err, ((MessageService.mk testRuntime.recording).Send "events" ""
          [("type", "click")] ⟨(testWorld, []), []⟩).1 = Outcome.returned (id, err) →
        err = none → id = (uuid.stamp raw).String) :=
  ⟨by decide,
   Send_envelope testRuntime "events" "" [("type", "click")] testWorld [] testMessage (by decide)⟩

/-- The attempt loop puts at most as many produce requests on the wire as it has attempts,
each of them carrying the same batch. -/
theorem writeBatch_requests {ω π : Type} (d : Deps ω π) (batch : List Message) (n : Nat)
    (last : Option GoError) (e : ω) (tr : List (List Message)) :
    ∃ k, k ≤ n ∧
      (Writer.writeBatch d.recording.Produce batch n last (e, tr)).2.2
        = tr ++ List.replicate k batch := by
  induction n generalizing last e tr with
  | zero => exact ⟨0, Nat.le_refl _, by simp [Writer.writeBatch]⟩
  | succ n ih =>
    unfold Writer.writeBatch
    dsimp only [Deps.recording]
    rcases hp : (d.Produce batch e).1 with _ | pe
    · exact ⟨1, by omega, by simp⟩
    · dsimp only
      by_cases ht : pe.temporary = true
      · rw [if_pos ht]
        obtain ⟨k, hk, hkeq⟩ := ih (some pe.err) (d.Produce batch e).2 (tr ++ [batch])
        refine ⟨k + 1, by omega, ?_⟩
        have hrec : Writer.writeBatch d.recording.Produce = Writer.writeBatch
            (fun b (s : ω × List (List Message)) =>
              ((d.Produce b s.1).1, (d.Produce b s.1).2, s.2 ++ [b])) := rfl
        rw [← hrec, hkeq, List.replicate_succ]
        simp
      · rw [if_neg ht]
        exact ⟨1, by omega, by simp⟩

/-- Where a `Send` leaves the world: after the entropy read when that fails, after the
serializer when that fails, and otherwise after the one call of `WriteMessages`. -/
theorem Send_final_env {ω π : Type} (rt : Runtime ω π) (topic key : String) (message : π)
    (env : ω) (log : List LogEntry) :
    ((MessageService.mk rt).Send topic key message ⟨env, log⟩).2.env = (rt.RandRead env).2 ∨
    (∃ v, ((MessageService.mk rt).Send topic key message ⟨env, log⟩).2.env
      = (rt.Marshal v (rt.Now (rt.RandRead env).2).2).2) ∨
    (∃ v msg, ((MessageService.mk rt).Send topic key message ⟨env, log⟩).2.env
      = (rt.WriteMessages msg (rt.Marshal v (rt.Now (rt.RandRead env).2).2).2).2) := by
  have hf := (Send_recording_faithful rt topic key message env [] log).2.1
  rw [← hf]
  rcases Send_cases rt topic key message env log with
    ⟨e, _, _, htr⟩ | ⟨raw, _, v, _, ⟨err, _, _, htr⟩ | ⟨value, _, msg, _, htr, _⟩⟩
  · left; rw [htr]
  · right; left; exact ⟨v, by rw [htr]⟩
  · right; right; exact ⟨v, msg, by rw [htr]⟩

/-- One `Send` through the writer `NewMessageService` builds puts at most ten produce requests
on the wire. -/
theorem Send_requests {ω π : Type} (d : Deps ω π) (configured topic key : String) (message : π)
    (env : ω) (log : List LogEntry) :
    (((NewMessageService d.recording configured).1.Send topic key message
      ⟨(env, []), log⟩).2.env.2).length ≤ 10 := by
  have h := Send_final_env (NewMessageService d.recording configured).1.rt topic key message
    (env, []) log
  have hmk : MessageService.mk (NewMessageService d.recording configured).1.rt
      = (NewMessageService d.recording configured).1 := rfl
  rw [hmk] at h
  rcases h with h | ⟨v, h⟩ | ⟨v, msg, h⟩
  · rw [h]
    simp [NewMessageService, Deps.recording]
  · rw [h]
    simp [NewMessageService, Deps.recording]
  · rw [h]
    obtain ⟨k, hk, hkeq⟩ := writeBatch_requests d [msg]
      (NewMessageService.writer configured).maxAttempts none
      (d.Marshal v (d.Now (d.RandRead env).2).2).2 []
    have hmax : (NewMessageService.writer configured).maxAttempts = 10 := by
      simp [NewMessageService.writer, Writer.maxAttempts]
    have hw : ((NewMessageService d.recording configured).1.rt.WriteMessages msg
        ((NewMessageService d.recording configured).1.rt.Marshal v
          ((NewMessageService d.recording configured).1.rt.Now
            ((NewMessageService d.recording configured).1.rt.RandRead (env, [])).2).2).2)
        = Writer.writeBatch d.recording.Produce [msg]
            (NewMessageService.writer configured).maxAttempts none
            ((d.Marshal v (d.Now (d.RandRead env).2).2).2, []) := rfl
    rw [hw, hkeq]
    simp only [List.nil_append, List.length_replicate]
    omega

/-- C7 as stated fails: through the writer `NewMessageService` builds, whose `MaxAttempts` is
left at the default of ten, one `Send` against a partition without a leader puts ten produce
requests for its message on the wire before it returns the error. -/
theorem Send_retries_on_the_wire :
    ((NewMessageService leaderlessDeps.recording "").1.Send "events" "" [("type", "click")]
        ⟨(testWorld, []), []⟩).2.env.2 = List.replicate 10 [testMessage] ∧
    ((NewMessageService leaderlessDeps.recording "").1.Send "events" "" [("type", "click")]
        ⟨(testWorld, []), []⟩).1.value? = some ("", some ⟨"[5] Leader Not Available"⟩) ∧
    1 < (((NewMessageService leaderlessDeps.recording "").1.Send "events" "" [("type", "click")]
        ⟨(testWorld, []), []⟩).2.env.2).length := by
  decide

/-- C7, amended: for every `Send`: through the writer `NewMessageService` builds, it puts at
most ten produce requests on the wire; it calls `writer.WriteMessages` at most once (it has no
retry and no buffer of its own); when serializing the envelope fails, it returns that error
with an empty id and makes no call; when the call fails, it returns its error unchanged with an
empty id; and a non-empty id is only ever returned together with a nil error. -/
theorem Send_failures {ω π : Type} (rt : Runtime ω π) (topic key : String) (message : π)
    (env : ω) (log : List LogEntry) (d : Deps ω π) (configured : String) :
    (((NewMessageService d.recording configured).1.Send topic key message
      ⟨(env, []), log⟩).2.env.2).length ≤ 10 ∧
    (writes ((MessageService.mk rt.recording).Send topic key message
      ⟨(env, []), log⟩).2.env.2).length ≤ 1 ∧
    (∀ v err,
      v ∈ marshals ((MessageService.mk rt.recording).Send topic key message
        ⟨(env, []), log⟩).2.env.2 →
      (rt.Marshal v (rt.Now (rt.RandRead env).2).2).1 = .error err →
      ((MessageService.mk rt.recording).Send topic key message ⟨(env, []), log⟩).1
        = Outcome.returned ("", some err) ∧
      writes ((MessageService.mk rt.recording).Send topic key message
        ⟨(env, []), log⟩).2.env.2 = []) ∧
    (∀ v m err,
      v ∈ marshals ((MessageService.mk rt.recording).Send topic key message
        ⟨(env, []), log⟩).2.env.2 →
      m ∈ writes ((MessageService.mk rt.recording).Send topic key message
        ⟨(env, []), log⟩).2.env.2 →
      (rt.WriteMessages m (rt.Marshal v (rt.Now (rt.RandRead env).2).2).2).1 = some err →
      ((MessageService.mk rt.recording).Send topic key message ⟨(env, []), log⟩).1
        = Outcome.returned ("", some err)) ∧
    (∀ id err,
      ((MessageService.mk rt.recording).Send topic key message ⟨(env, []), log⟩).1
        = Outcome.returned (id, err) → id ≠ "" → err = none) := by
  refine ⟨Send_requests d configured topic key message env log, ?_⟩
  rcases Send_cases rt topic key message env log with
    ⟨e, _, hr, htr⟩ | ⟨raw, hraw, v, hv, ⟨err, herr, hr, htr⟩ | ⟨value, hval, msg, hmsg, htr, hres⟩⟩
  · rw [htr, hr]
    simp [writes, marshals]
  · rw [htr, hr]
    simp only [writes, marshals, List.length_nil, Nat.zero_le, List.mem_singleton, true_and,
      List.not_mem_nil, false_imp_iff, implies_true, and_true]
    refine ⟨?_, ?_⟩
    · intro v' err' hv' he
      subst hv'
      rw [herr] at he
      simp only [Except.error.injEq] at he
      rw [he]
    · intro id err' h
      simp only [Outcome.returned.injEq, Prod.mk.injEq] at h
      intro hne
      exact absurd h.1.symm hne
  · rw [htr]
    simp only [writes, marshals, List.length_singleton, Nat.le_refl, List.mem_singleton, true_and]
    refine ⟨?_, ?_, ?_⟩
    · intro v' err' hv' he
      subst hv'
      rw [hval] at he
      simp at he
    · intro v' m' err' hv' hm' he
      subst hv' hm'
      rcases hres with ⟨err2, he2, hr⟩ | ⟨he2, hr⟩
      · rw [he2] at he
        simp only [Option.some.injEq] at he
        rw [hr, he]
      · rw [he2] at he
        simp at he
    · intro id err' h hne
      rcases hres with ⟨err2, he2, hr⟩ | ⟨he2, hr⟩
      · rw [hr] at h
        simp only [Outcome.returned.injEq, Prod.mk.injEq] at h
        exact absurd h.1.symm hne
      · rw [hr] at h
        simp only [Outcome.returned.injEq, Prod.mk.injEq] at h
        exact h.2.symm

/-- C7, amended, on the test doubles: a payload the serializer rejects gives that error, an
empty id and no call of the writer; a writer that times out gives its error unchanged and an
empty id. -/
theorem Send_failures_scenario :
    ((MessageService.mk unencodableRuntime.recording).Send "events" "" [("type", "click")]
        ⟨(testWorld, []), []⟩).1 = Outcome.returned ("", some ⟨"json: unsupported value"⟩) ∧
    writes ((MessageService.mk unencodableRuntime.recording).Send "events" "" [("type", "click")]
        ⟨(testWorld, []), []⟩).2.env.2 = [] ∧
    ((MessageService.mk brokerDownRuntime.recording).Send "events" "k1" [("type", "click")]
        ⟨(testWorld, []), []⟩).1 = Outcome.returned ("", some ⟨"context deadline exceeded"⟩) :=
  ⟨((Send_failures unencodableRuntime "events" "" [("type", "click")] testWorld []
      leaderlessDeps "").2.2.1
      ⟨"00010203-0405-4607-8809-0a0b0c0d0e0f", "was-8-go", "2025-11-04T13:20:00Z",
       [("type", "click")]⟩ ⟨"json: unsupported value"⟩ (by decide) rfl).1,
   ((Send_failures unencodableRuntime "events" "" [("type", "click")] testWorld []
      leaderlessDeps "").2.2.1
      ⟨"00010203-0405-4607-8809-0a0b0c0d0e0f", "was-8-go", "2025-11-04T13:20:00Z",
       [("type", "click")]⟩ ⟨"json: unsupported value"⟩ (by decide) rfl).2,
   (Send_failures brokerDownRuntime "events" "k1" [("type", "click")] testWorld []
      leaderlessDeps "").2.2.2.1
      ⟨"00010203-0405-4607-8809-0a0b0c0d0e0f", "was-8-go", "2025-11-04T13:20:00Z",
       [("type", "click")]⟩ { testMessage with Key := "k1" } ⟨"context deadline exceeded"⟩
      (by decide) (by decide) rfl⟩

end messaging

namespace uuid

/-- A hex digit determines its nibble. -/
theorem hexDigit_injective : ∀ i j : Fin 16,
    hextable.getD i.val '0' = hextable.getD j.val '0' → i = j := by
  decide

/-- One byte is recovered from its two hex digits. -/
theorem hexByte_injective : Function.Injective hexByte := by
  intro a b h
  simp only [hexByte, List.cons.injEq, and_true] at h
  have hs : ∀ x : Fin 256, x.val >>> 4 = x.val / 16 ∧ x.val &&& 0x0f = x.val % 16 := by
    intro x
    refine ⟨by rw [Nat.shiftRight_eq_div_pow], ?_⟩
    exact Nat.and_pow_two_sub_one_eq_mod x.val 4
  rw [(hs a).1, (hs b).1, (hs a).2, (hs b).2] at h
  have h1 := hexDigit_injective ⟨a.val / 16, by omega⟩ ⟨b.val / 16, by omega⟩ h.1
  have h2 := hexDigit_injective ⟨a.val % 16, by omega⟩ ⟨b.val % 16, by omega⟩ h.2
  simp only [Fin.mk.injEq] at h1 h2
  apply Fin.ext
  omega

/-- Peeling one encoded byte off the front of two equal texts. -/
theorem hexByte_append_inj (a b : Fin 256) (x y : List Char)
    (h : hexByte a ++ x = hexByte b ++ y) : a = b ∧ x = y :=
  ⟨hexByte_injective (List.append_inj h rfl).1, (List.append_inj h rfl).2⟩

/-- Peeling one separator off the front of two equal texts. -/
theorem dash_append_inj (x y : List Char) (h : ['-'] ++ x = ['-'] ++ y) : x = y :=
  (List.append_inj h rfl).2

/-- Two UUIDs with the same text form are the same sixteen bytes. -/
theorem String_injective (u v : UUID) (h : u.String = v.String) : u = v := by
  have h1 : encodeHex u = encodeHex v := congrArg String.data h
  simp only [encodeHex, List.append_assoc] at h1
  obtain ⟨e0, h1⟩ := hexByte_append_inj _ _ _ _ h1
  obtain ⟨e1, h1⟩ := hexByte_append_inj _ _ _ _ h1
  obtain ⟨e2, h1⟩ := hexByte_append_inj _ _ _ _ h1
  obtain ⟨e3, h1⟩ := hexByte_append_inj _ _ _ _ h1
  have h1 := dash_append_inj _ _ h1
  obtain ⟨e4, h1⟩ := hexByte_append_inj _ _ _ _ h1
  obtain ⟨e5, h1⟩ := hexByte_append_inj _ _ _ _ h1
  have h1 := dash_append_inj _ _ h1
  obtain ⟨e6, h1⟩ := hexByte_append_inj _ _ _ _ h1
  obtain ⟨e7, h1⟩ := hexByte_append_inj _ _ _ _ h1
  have h1 := dash_append_inj _ _ h1
  obtain ⟨e8, h1⟩ := hexByte_append_inj _ _ _ _ h1
  obtain ⟨e9, h1⟩ := hexByte_append_inj _ _ _ _ h1
  have h1 := dash_append_inj _ _ h1
  obtain ⟨e10, h1⟩ := hexByte_append_inj _ _ _ _ h1
  obtain ⟨e11, h1⟩ := hexByte_append_inj _ _ _ _ h1
  obtain ⟨e12, h1⟩ := hexByte_append_inj _ _ _ _ h1
  obtain ⟨e13, h1⟩ := hexByte_append_inj _ _ _ _ h1
  obtain ⟨e14, h1⟩ := hexByte_append_inj _ _ _ _ h1
  have e15 := hexByte_injective h1
  funext i
  fin_cases i
  · exact e0
  · exact e1
  · exact e2
  · exact e3
  · exact e4
  · exact e5
  · exact e6
  · exact e7
  · exact e8
  · exact e9
  · exact e10
  · exact e11
  · exact e12
  · exact e13
  · exact e14
  · exact e15

end uuid

namespace uuid

set_option maxRecDepth 100000 in
/-- The version stamp keeps the low four bits of byte 6. -/
theorem version_bits : ∀ a : Fin 256, ((a &&& 0x0f) ||| 0x40).val = a.val % 16 + 64 := by
  decide

set_option maxRecDepth 100000 in
/-- The variant stamp keeps the low six bits of byte 8. -/
theorem variant_bits : ∀ a : Fin 256, ((a &&& 0x3f) ||| 0x80).val = a.val % 64 + 128 := by
  decide

/-- Two stamped UUIDs coincide exactly when the draws agree on the 122 bits that survive the
stamping: all of the fourteen other bytes, the low four bits of byte 6, the low six of byte 8. -/
theorem stamp_eq_iff (a b : UUID) :
    stamp a = stamp b ↔
      (∀ i, i ≠ 6 → i ≠ 8 → a i = b i) ∧
      (a 6).val % 16 = (b 6).val % 16 ∧ (a 8).val % 64 = (b 8).val % 64 := by
  have h6 : ∀ r : UUID, stamp r 6 = ((r 6 &&& 0x0f) ||| 0x40) := by
    intro r
    simp [stamp, Function.update]
  have h8 : ∀ r : UUID, stamp r 8 = ((r 8 &&& 0x3f) ||| 0x80) := by
    intro r
    simp [stamp, Function.update]
  have hi : ∀ (r : UUID) i, i ≠ 6 → i ≠ 8 → stamp r i = r i := by
    intro r i n6 n8
    simp [stamp, Function.update, n6, n8]
  constructor
  · intro h
    refine ⟨fun i n6 n8 => ?_, ?_, ?_⟩
    · rw [← hi a i n6 n8, ← hi b i n6 n8, h]
    · have := congrArg Fin.val (congrFun h 6)
      rw [h6, h6, version_bits, version_bits] at this
      omega
    · have := congrArg Fin.val (congrFun h 8)
      rw [h8, h8, variant_bits, variant_bits] at this
      omega
  · rintro ⟨h, e6, e8⟩
    funext i
    by_cases n6 : i = 6
    · subst n6
      rw [h6, h6]
      apply Fin.ext
      rw [version_bits, version_bits, e6]
    · by_cases n8 : i = 8
      · subst n8
        rw [h8, h8]
        apply Fin.ext
        rw [variant_bits, variant_bits, e8]
      · rw [hi a i n6 n8, hi b i n6 n8, h i n6 n8]

end uuid

namespace messaging

/-- C8 as stated fails: with an entropy source that repeats its draw, two consecutive `Send`
calls with identical topic, key and payload both succeed and return the same identifier. -/
theorem Send_ids_can_repeat :
    ((MessageService.mk stuckRuntime).Send "events" "" [("type", "click")]
        ⟨testWorld, []⟩).1.value?
      = some ("00000000-0000-4000-8000-000000000000", none) ∧
    ((MessageService.mk stuckRuntime).Send "events" "" [("type", "click")]
        ((MessageService.mk stuckRuntime).Send "events" "" [("type", "click")]
          ⟨testWorld, []⟩).2).1.value?
      = some ("00000000-0000-4000-8000-000000000000", none) := by
  decide

/-- C8, amended: the identifier of a `Send` is the text form of the stamped sixteen bytes drawn
from the entropy source, whatever the topic, key and payload; and two `Send` calls get distinct
identifiers exactly when their draws differ in one of the 122 bits that survive the stamping. -/
theorem Send_id_from_entropy {ω π : Type} (rt : Runtime ω π)
    (topic key : String) (message : π) (env : ω) (log : List LogEntry)
    (topic' key' : String) (message' : π) (env' : ω) (log' : List LogEntry)
    (raw raw' : uuid.UUID)
    (h : (rt.RandRead env).1 = .ok raw) (h' : (rt.RandRead env').1 = .ok raw') :
    (marshals ((MessageService.mk rt.recording).Send topic key message
        ⟨(env, []), log⟩).2.env.2).map WrappedMessage.ID = [(uuid.stamp raw).String] ∧
    (marshals ((MessageService.mk rt.recording).Send topic' key' message'
        ⟨(env', []), log'⟩).2.env.2).map WrappedMessage.ID = [(uuid.stamp raw').String] ∧
    ((uuid.stamp raw).String ≠ (uuid.stamp raw').String ↔
      ¬ ((∀ i, i ≠ 6 → i ≠ 8 → raw i = raw' i) ∧
         (raw 6).val % 16 = (raw' 6).val % 16 ∧ (raw 8).val % 64 = (raw' 8).val % 64)) := by
  have hid : ∀ (t k : String) (msg : π) (e : ω) (l : List LogEntry) (r : uuid.UUID),
      (rt.RandRead e).1 = .ok r →
      (marshals ((MessageService.mk rt.recording).Send t k msg
        ⟨(e, []), l⟩).2.env.2).map WrappedMessage.ID = [(uuid.stamp r).String] := by
    intro t k msg e l r hr
    rcases Send_cases rt t k msg e l with
      ⟨x, hx, _, _⟩ | ⟨r2, hr2, v, hv, ⟨err, _, _, htr⟩ | ⟨value, _, m, _, htr, _⟩⟩
    · rw [hr] at hx; simp at hx
    · rw [hr] at hr2
      simp only [Except.ok.injEq] at hr2
      rw [htr, hv, hr2]
      simp [marshals]
    · rw [hr] at hr2
      simp only [Except.ok.injEq] at hr2
      rw [htr, hv, hr2]
      simp [marshals]
  refine ⟨hid _ _ _ _ _ _ h, hid _ _ _ _ _ _ h', ?_⟩
  rw [← uuid.stamp_eq_iff]
  exact not_congr ⟨uuid.String_injective _ _, fun e => by rw [e]⟩

/-- C8, amended, on the healthy test double: two consecutive sends draw different bytes and
get different identifiers. -/
theorem Send_id_from_entropy_scenario :
    (testRuntime.RandRead testWorld).1 = .ok (fun i => Fin.ofNat (0 + i.val)) ∧
    (testRuntime.RandRead ((MessageService.mk testRuntime).Send "events" "" [("type", "click")]
        ⟨testWorld, []⟩).2.env).1 = .ok (fun i => Fin.ofNat (16 + i.val)) ∧
    (uuid.stamp (fun i => Fin.ofNat (0 + i.val))).String
      ≠ (uuid.stamp (fun i => Fin.ofNat (16 + i.val))).String :=
  ⟨rfl, rfl,
   (Send_id_from_entropy testRuntime "events" "" [("type", "click")] testWorld []
      "events" "" [("type", "click")]
      ((MessageService.mk testRuntime).Send "events" "" [("type", "click")] ⟨testWorld, []⟩).2.env
      [] (fun i => Fin.ofNat (0 + i.val)) (fun i => Fin.ofNat (16 + i.val)) rfl rfl).2.2.mpr
     (fun hh => absurd (hh.1 0 (by decide) (by decide)) (by decide))⟩

end messaging

namespace strings

/-- The scanning loop always yields at least one piece. -/
theorem splitLoop_ne_nil (sep : Char) (l cur : List Char) : splitLoop sep cur l ≠ [] := by
  induction l generalizing cur with
  | nil => simp [splitLoop]
  | cons c cs ih =>
    unfold splitLoop
    by_cases h : c = sep
    · simp [h]
    · simp only [h, if_false]
      exact ih _

/-- The function `strings.Split` never returns an empty slice. -/
theorem Split_ne_nil (s : String) (sep : Char) : Split s sep ≠ [] :=
  splitLoop_ne_nil sep s.data []

/-- The first piece is the text up to the first separator. -/
theorem splitLoop_head (sep : Char) (l cur : List Char) :
    (splitLoop sep cur l).head? =
      some (String.mk (cur.reverse ++ l.takeWhile (fun c => decide (c ≠ sep)))) := by
  induction l generalizing cur with
  | nil => simp [splitLoop]
  | cons c cs ih =>
    unfold splitLoop
    by_cases h : c = sep
    · simp [h]
    · simp only [h, if_false]
      rw [ih]
      simp [h]

/-- No piece contains the separator. -/
theorem splitLoop_no_sep (sep : Char) (l cur : List Char) (hcur : sep ∉ cur) :
    ∀ p ∈ splitLoop sep cur l, sep ∉ p.data := by
  induction l generalizing cur with
  | nil =>
    intro p hp
    simp only [splitLoop, List.mem_singleton] at hp
    subst hp
    simpa using hcur
  | cons c cs ih =>
    intro p hp
    unfold splitLoop at hp
    by_cases h : c = sep
    · simp only [h, if_true, List.mem_cons] at hp
      rcases hp with hp | hp
      · subst hp
        simpa using hcur
      · exact ih [] (by simp) p hp
    · simp only [h, if_false] at hp
      refine ih (c :: cur) ?_ p hp
      simp only [List.mem_cons, not_or]
      exact ⟨fun e => h e.symm, hcur⟩

/-- Putting the separator back between the pieces gives the text that was split. -/
theorem splitLoop_join (sep : Char) (l cur : List Char) :
    List.intercalate [sep] ((splitLoop sep cur l).map String.data) = cur.reverse ++ l := by
  induction l generalizing cur with
  | nil => simp [splitLoop, List.intercalate]
  | cons c cs ih =>
    unfold splitLoop
    by_cases h : c = sep
    · simp only [h, if_true, List.map_cons]
      have hne := splitLoop_ne_nil sep cs []
      rcases hs : splitLoop sep [] cs with _ | ⟨q, qs⟩
      · exact absurd hs hne
      · have := ih []
        rw [hs] at this
        simp only [List.map_cons, List.reverse_nil, List.nil_append] at this
        simp only [List.intercalate, List.map_cons, List.intersperse_cons₂, List.flatten_cons] at this ⊢
        rw [this]
        simp
    · simp only [h, if_false]
      rw [ih]
      simp

end strings

namespace messaging

/-- Assigning a key keeps the keys of the map pairwise distinct. -/
theorem TopicSet.set_keys (m : TopicSet) (k : String) (v : Bool) :
    ((TopicSet.set m k v).map Prod.fst).toFinset = insert k (m.map Prod.fst).toFinset ∧
    ((m.map Prod.fst).Nodup → ((TopicSet.set m k v).map Prod.fst).Nodup) := by
  induction m with
  | nil => simp [TopicSet.set]
  | cons kv m ih =>
    obtain ⟨k', v'⟩ := kv
    unfold TopicSet.set
    by_cases h : k' = k
    · subst h
      simp
    · simp only [h, if_false, List.map_cons, List.toFinset_cons, List.nodup_cons]
      refine ⟨by rw [ih.1, Finset.Insert.comm], fun hn => ⟨?_, ih.2 hn.2⟩⟩
      intro hmem
      have hmem' : k' ∈ ((TopicSet.set m k v).map Prod.fst).toFinset := List.mem_toFinset.mpr hmem
      rw [ih.1, Finset.mem_insert, List.mem_toFinset] at hmem'
      rcases hmem' with e | e
      · exact h e
      · exact hn.1 e

/-- The topic-collecting loop ends with one entry per distinct topic name. -/
theorem collectTopics_keys (ps : List Partition) (m : TopicSet) (hm : (m.map Prod.fst).Nodup) :
    ((collectTopics ps m).map Prod.fst).toFinset
        = (m.map Prod.fst).toFinset ∪ (ps.map Partition.Topic).toFinset ∧
    ((collectTopics ps m).map Prod.fst).Nodup := by
  induction ps generalizing m with
  | nil => simp [collectTopics, hm]
  | cons p ps ih =>
    have h := ih (TopicSet.set m p.Topic true) ((TopicSet.set_keys m p.Topic true).2 hm)
    have hstep : collectTopics (p :: ps) m = collectTopics ps (TopicSet.set m p.Topic true) := rfl
    rw [hstep]
    refine ⟨?_, h.2⟩
    rw [h.1, (TopicSet.set_keys m p.Topic true).1]
    ext x
    simp only [Finset.mem_union, Finset.mem_insert, List.mem_toFinset, List.map_cons,
      List.mem_cons]
    tauto

/-- The size of the collected map is the number of distinct topic names. -/
theorem collectTopics_length (ps : List Partition) :
    (collectTopics ps []).length = (ps.map Partition.Topic).dedup.length := by
  have h := collectTopics_keys ps [] (by simp)
  have h1 : ((collectTopics ps []).map Prod.fst).toFinset.card
      = ((collectTopics ps []).map Prod.fst).length := List.toFinset_card_of_nodup h.2
  rw [List.length_map] at h1
  rw [← h1, h.1]
  simp [List.card_toFinset]

/-- C10: for every broker configuration, the broker list has a first entry, namely the
configured list (the built-in one when the variable is unset) up to its first comma, so
`HealthCheck` never panics on the index; the entries are the comma-free pieces of that list;
`HealthCheck` dials exactly the first entry; it returns DOWN with the error text when the dial
or the partition listing fails, and otherwise UP with `topics_count` the number of distinct
topic names in the listing, which is 0 for an empty listing and at most the number of
partitions. -/
theorem HealthCheck_report {ω κ : Type} (b : Broker ω κ) (env : ω) :
    brokerList "" = ["kafka-1:9092", "kafka-2:9092", "kafka-3:9092"] ∧
    ∃ first rest, brokerList (b.Getenv "KAFKA_BROKERS" env) = first :: rest ∧
      first = String.mk
        ((if b.Getenv "KAFKA_BROKERS" env = "" then defaultBrokers
          else b.Getenv "KAFKA_BROKERS" env).data.takeWhile (fun c => decide (c ≠ ','))) ∧
      (∀ p ∈ first :: rest, ',' ∉ p.data) ∧
      List.intercalate [','] ((first :: rest).map String.data)
        = (if b.Getenv "KAFKA_BROKERS" env = "" then defaultBrokers
           else b.Getenv "KAFKA_BROKERS" env).data ∧
      (MessageService.HealthCheck b.recording (env, [])).2.2 = [⟨"tcp", first⟩] ∧
      (∀ err, (b.Dial "tcp" first env).1 = .error err →
        (MessageService.HealthCheck b.recording (env, [])).1.value?
          = some [("status", Value.str "DOWN"), ("error", Value.str err.Error)]) ∧
      (∀ conn err, (b.Dial "tcp" first env).1 = .ok conn →
        (b.ReadPartitions conn (b.Dial "tcp" first env).2).1 = .error err →
        (MessageService.HealthCheck b.recording (env, [])).1.value?
          = some [("status", Value.str "DOWN"), ("error", Value.str err.Error)]) ∧
      (∀ conn ps, (b.Dial "tcp" first env).1 = .ok conn →
        (b.ReadPartitions conn (b.Dial "tcp" first env).2).1 = .ok ps →
        (MessageService.HealthCheck b.recording (env, [])).1.value?
          = some [("status", Value.str "UP"),
                  ("topics_count", Value.int ((ps.map Partition.Topic).dedup.length))] ∧
        (ps.map Partition.Topic).dedup.length ≤ ps.length ∧
        (ps = [] → (ps.map Partition.Topic).dedup.length = 0)) := by
  refine ⟨by decide, ?_⟩
  rcases hbl : brokerList (b.Getenv "KAFKA_BROKERS" env) with _ | ⟨first, rest⟩
  · exact absurd hbl (strings.Split_ne_nil _ _)
  · have hhead := strings.splitLoop_head ','
      (if b.Getenv "KAFKA_BROKERS" env = "" then defaultBrokers
       else b.Getenv "KAFKA_BROKERS" env).data []
    have hnosep := strings.splitLoop_no_sep ','
      (if b.Getenv "KAFKA_BROKERS" env = "" then defaultBrokers
       else b.Getenv "KAFKA_BROKERS" env).data [] (List.not_mem_nil _)
    have hjoin := strings.splitLoop_join ','
      (if b.Getenv "KAFKA_BROKERS" env = "" then defaultBrokers
       else b.Getenv "KAFKA_BROKERS" env).data []
    have hsplit : strings.splitLoop ','  []
        (if b.Getenv "KAFKA_BROKERS" env = "" then defaultBrokers
         else b.Getenv "KAFKA_BROKERS" env).data = first :: rest := hbl
    rw [hsplit] at hhead hnosep hjoin
    simp only [List.head?_cons, Option.some.injEq, List.reverse_nil, List.nil_append] at hhead hjoin
    refine ⟨first, rest, rfl, hhead, hnosep, hjoin, ?_⟩
    have hbl' : brokerList (b.recording.Getenv "KAFKA_BROKERS" (env, [])) = first :: rest := hbl
    unfold MessageService.HealthCheck
    rw [hbl']
    unfold Broker.recording
    dsimp only
    rcases hd : (b.Dial "tcp" first env).1 with err | conn
    · simp [Outcome.value?]
    · dsimp only
      rcases hr : (b.ReadPartitions conn (b.Dial "tcp" first env).2).1 with err | ps
      · refine ⟨by simp, by simp, ?_, ?_⟩
        · intro conn' err' hc he
          simp only [Except.ok.injEq] at hc
          subst hc
          rw [hr] at he
          simp only [Except.error.injEq] at he
          subst he
          rfl
        · intro conn' ps' hc he
          simp only [Except.ok.injEq] at hc
          subst hc
          rw [hr] at he
          simp at he
      · refine ⟨by simp, by simp, ?_, ?_⟩
        · intro conn' err' hc he
          simp only [Except.ok.injEq] at hc
          subst hc
          rw [hr] at he
          simp at he
        · intro conn' ps' hc he
          simp only [Except.ok.injEq] at hc
          subst hc
          rw [hr] at he
          simp only [Except.ok.injEq] at he
          subst he
          dsimp only [Outcome.value?]
          rw [collectTopics_length]
          refine ⟨rfl, ?_, fun h => by simp [h]⟩
          calc (ps.map Partition.Topic).dedup.length
              ≤ (ps.map Partition.Topic).length := (List.dedup_sublist _).length_le
            _ = ps.length := List.length_map _ _

/-- C10 on the test broker: with "broker-a:9092,broker-b:9092" configured the probe dials
"broker-a:9092" and reports UP with two topics; with nothing configured it dials
"kafka-1:9092", which does not answer, and reports DOWN with the dial error. -/
theorem HealthCheck_report_scenario :
    (MessageService.HealthCheck (testBroker "broker-a:9092,broker-b:9092").recording ((), [])).2.2
      = [⟨"tcp", "broker-a:9092"⟩] ∧
    (MessageService.HealthCheck (testBroker "broker-a:9092,broker-b:9092").recording
        ((), [])).1.value?
      = some [("status", Value.str "UP"), ("topics_count", Value.int 2)] ∧
    (MessageService.HealthCheck (testBroker "").recording ((), [])).2.2
      = [⟨"tcp", "kafka-1:9092"⟩] ∧
    (MessageService.HealthCheck (testBroker "").recording ((), [])).1.value?
      = some [("status", Value.str "DOWN"), ("error", Value.str "dial tcp: no such host")] := by
  obtain ⟨_, first, rest, _, hfirst, _, _, hdial, _, _, hup⟩ :=
    HealthCheck_report (testBroker "broker-a:9092,broker-b:9092") ()
  have hf : first = "broker-a:9092" := hfirst.trans (by decide)
  subst hf
  obtain ⟨_, first', rest', _, hfirst', _, _, hdial', hdown, _, _⟩ :=
    HealthCheck_report (testBroker "") ()
  have hf' : first' = "kafka-1:9092" := hfirst'.trans (by decide)
  subst hf'
  exact ⟨hdial, (hup () [⟨"events", 0⟩, ⟨"events", 1⟩, ⟨"audit", 0⟩] rfl rfl).1, hdial',
    hdown ⟨"dial tcp: no such host"⟩ rfl⟩

end messaging

/-! ## Timestamps: theorems -/

namespace time

/-- A number below ten is printed as its one digit. -/
theorem digitsLoop_one (fuel u : Nat) (acc : List Char) (h : u < 10) :
    digitsLoop (fuel + 1) u acc = digit u :: acc := by
  simp [digitsLoop, h]

/-- A two-digit number is printed as its two digits. -/
theorem digitsLoop_two (fuel u : Nat) (acc : List Char) (h1 : 10 ≤ u) (h2 : u < 100) :
    digitsLoop (fuel + 2) u acc = digit (u / 10) :: digit (u % 10) :: acc := by
  have h : ¬ u < 10 := by omega
  rw [digitsLoop, if_neg h, digitsLoop_one _ _ _ (by omega)]

/-- A three-digit number is printed as its three digits. -/
theorem digitsLoop_three (fuel u : Nat) (acc : List Char) (h1 : 100 ≤ u) (h2 : u < 1000) :
    digitsLoop (fuel + 3) u acc
      = digit (u / 10 / 10) :: digit (u / 10 % 10) :: digit (u % 10) :: acc := by
  have h : ¬ u < 10 := by omega
  rw [digitsLoop, if_neg h, digitsLoop_two _ _ _ (by omega) (by omega)]

/-- A four-digit number is printed as its four digits. -/
theorem digitsLoop_four (fuel u : Nat) (acc : List Char) (h1 : 1000 ≤ u) (h2 : u < 10000) :
    digitsLoop (fuel + 4) u acc
      = digit (u / 10 / 10 / 10) :: digit (u / 10 / 10 % 10) :: digit (u / 10 % 10)
          :: digit (u % 10) :: acc := by
  have h : ¬ u < 10 := by omega
  rw [digitsLoop, if_neg h, digitsLoop_three _ _ _ (by omega) (by omega)]

/-- The digit for zero is the padding byte. -/
theorem digit_zero : digit 0 = '0' := by decide

/-- Two-digit fields: `appendInt x 2` for `x < 100`. -/
theorem appendInt_two (x : Nat) (h : x < 100) :
    appendInt x 2 = [digit (x / 10), digit (x % 10)] := by
  unfold appendInt
  by_cases h1 : x < 10
  · rw [digitsLoop_one x x [] h1]
    have : x / 10 = 0 := by omega
    have h2 : x % 10 = x := by omega
    rw [this, h2, digit_zero]
    rfl
  · obtain ⟨k, rfl⟩ : ∃ k, x = k + 1 := ⟨x - 1, by omega⟩
    rw [digitsLoop_two k (k + 1) [] (by omega) h]
    rfl

/-- Four-digit fields: `appendInt x 4` for `x < 10000`. -/
theorem appendInt_four (x : Nat) (h : x < 10000) :
    appendInt x 4 = [digit (x / 1000), digit (x / 100 % 10), digit (x / 10 % 10), digit (x % 10)] := by
  unfold appendInt
  have e1 : x / 10 / 10 = x / 100 := by omega
  have e2 : x / 10 / 10 / 10 = x / 1000 := by omega
  by_cases h1 : x < 10
  · rw [digitsLoop_one x x [] h1]
    have a1 : x / 1000 = 0 := by omega
    have a2 : x / 100 % 10 = 0 := by omega
    have a3 : x / 10 % 10 = 0 := by omega
    have a4 : x % 10 = x := by omega
    rw [a1, a2, a3, a4, digit_zero]
    rfl
  · by_cases h2 : x < 100
    · obtain ⟨k, rfl⟩ : ∃ k, x = k + 1 := ⟨x - 1, by omega⟩
      rw [digitsLoop_two k (k + 1) [] (by omega) h2]
      have a1 : (k + 1) / 1000 = 0 := by omega
      have a2 : (k + 1) / 100 % 10 = 0 := by omega
      have a3 : (k + 1) / 10 % 10 = (k + 1) / 10 := by omega
      rw [a1, a2, a3, digit_zero]
      rfl
    · by_cases h3 : x < 1000
      · obtain ⟨k, rfl⟩ : ∃ k, x = k + 2 := ⟨x - 2, by omega⟩
        rw [digitsLoop_three k (k + 2) [] (by omega) h3, e1]
        have a1 : (k + 2) / 1000 = 0 := by omega
        have a2 : (k + 2) / 100 % 10 = (k + 2) / 100 := by omega
        rw [a1, a2, digit_zero]
        rfl
      · obtain ⟨k, rfl⟩ : ∃ k, x = k + 3 := ⟨x - 3, by omega⟩
        rw [digitsLoop_four k (k + 3) [] (by omega) h, e2, e1]
        rfl

/-- Reading a printed digit gives the digit back. -/
theorem digitValue_digit (n : Nat) : digitValue (digit n) = some (n % 10) := by
  have h : ∀ k : Fin 10, digitValue (digit k.val) = some k.val := by decide
  have h2 := h ⟨n % 10, Nat.mod_lt _ (by decide)⟩
  have h3 : digit (n % 10) = digit n := by
    unfold digit
    rw [Nat.mod_mod]
  simpa [h3] using h2

/-- Reading a printed two-digit field gives the number back. -/
theorem number_two (x : Nat) (h : x < 100) : number [digit (x / 10), digit (x % 10)] = some x := by
  simp only [number, List.foldl, digitValue_digit]
  have : 10 * (10 * 0 + x / 10 % 10) + x % 10 % 10 = x := by omega
  rw [this]

/-- Reading a printed four-digit field gives the number back. -/
theorem number_four (x : Nat) (h : x < 10000) :
    number [digit (x / 1000), digit (x / 100 % 10), digit (x / 10 % 10), digit (x % 10)]
      = some x := by
  simp only [number, List.foldl, digitValue_digit]
  have : 10 * (10 * (10 * (10 * 0 + x / 1000 % 10) + x / 100 % 10 % 10) + x / 10 % 10 % 10)
      + x % 10 % 10 = x := by omega
  rw [this]

end time

namespace time

/-- The steps of `yearDay`, named. -/
theorem yearDay_eq (d : Nat) :
    ∃ n400 d1 r100 n100 d2 n4 d3 r1 n1 : Nat,
      n400 = d / 146097 ∧ d1 = d - 146097 * n400 ∧ r100 = d1 / 36524 ∧
      n100 = r100 - r100 / 4 ∧ d2 = d1 - 36524 * n100 ∧ n4 = d2 / 1461 ∧
      d3 = d2 - 1461 * n4 ∧ r1 = d3 / 365 ∧ n1 = r1 - r1 / 4 ∧
      yearDay d = (400 * n400 + 100 * n100 + 4 * n4 + n1 + 1, d3 - 365 * n1) := by
  have hs : ∀ n : Nat, n >>> 2 = n / 4 := fun n => by rw [Nat.shiftRight_eq_div_pow]
  refine ⟨d / 146097, d - 146097 * (d / 146097), _, _, _, _, _, _, _,
    rfl, rfl, rfl, rfl, rfl, rfl, rfl, rfl, rfl, ?_⟩
  unfold yearDay
  simp only [hs]

/-- The steps of `daysSinceEpoch`, named. -/
theorem daysSinceEpoch_eq (year : Nat) :
    ∃ y n400 y1 n100 y2 n4 y3 : Nat,
      y = year + 399 ∧ n400 = y / 400 ∧ y1 = y - 400 * n400 ∧ n100 = y1 / 100 ∧
      y2 = y1 - 100 * n100 ∧ n4 = y2 / 4 ∧ y3 = y2 - 4 * n4 ∧
      daysSinceEpoch year = 146097 * n400 + 36524 * n100 + 1461 * n4 + 365 * y3 :=
  ⟨_, _, _, _, _, _, _, rfl, rfl, rfl, rfl, rfl, rfl, rfl, rfl⟩

/-- The leap-year test `isLeap` as a proposition. -/
theorem isLeap_iff (year : Nat) :
    isLeap year = true ↔ year % 4 = 0 ∧ (year % 100 ≠ 0 ∨ year % 400 = 0) := by
  simp [isLeap]


/-- Arithmetic of the year-cutting steps: ranges of the cycle counts and the day count as their sum. -/
theorem cut_bounds (d n400 d1 r100 n100 d2 n4 d3 r1 n1 : Nat)
    (a1 : n400 = d / 146097) (a2 : d1 = d - 146097 * n400) (a3 : r100 = d1 / 36524)
    (a4 : n100 = r100 - r100 / 4) (a5 : d2 = d1 - 36524 * n100) (a6 : n4 = d2 / 1461)
    (a7 : d3 = d2 - 1461 * n4) (a8 : r1 = d3 / 365) (a9 : n1 = r1 - r1 / 4) :
    n100 ≤ 3 ∧ n4 ≤ 24 ∧ n1 ≤ 3 ∧ d3 - 365 * n1 ≤ 365 ∧
    d = 146097 * n400 + 36524 * n100 + 1461 * n4 + 365 * n1 + (d3 - 365 * n1) ∧
    (d3 - 365 * n1 = 365 → n1 = 3 ∧ (n4 = 24 → n100 = 3)) := by
  have c1 : d1 < 146097 ∧ d = 146097 * n400 + d1 := by omega
  clear a1 a2
  have c2 : n100 ≤ 3 ∧ d2 ≤ 36524 ∧ d1 = 36524 * n100 + d2 ∧ (d2 = 36524 → n100 = 3) := by omega
  clear a3 a4 a5
  have c4 : n4 ≤ 24 ∧ d3 ≤ 1460 ∧ d2 = 1461 * n4 + d3 ∧ (n4 = 24 → d3 = 1460 → d2 = 36524) := by omega
  clear a6 a7
  have c6 : n1 ≤ 3 ∧ d3 - 365 * n1 ≤ 365 ∧ 365 * n1 ≤ d3 ∧ (d3 - 365 * n1 = 365 → n1 = 3 ∧ d3 = 1460) := by
    omega
  clear a8 a9
  refine ⟨c2.1, c4.1, c6.1, c6.2.1, by omega, fun h => ⟨(c6.2.2.2 h).1, fun h4 => ?_⟩⟩
  exact c2.2.2.2 (c4.2.2.2 h4 (c6.2.2.2 h).2)

/-- Arithmetic of `daysSinceEpoch` on a year assembled from cycle counts. -/
theorem epoch_of_cut (year n400 n100 n4 n1 y m400 y1 m100 y2 m4 y3 : Nat)
    (hy : year = 400 * n400 + 100 * n100 + 4 * n4 + n1 + 1)
    (h100 : n100 ≤ 3) (h4 : n4 ≤ 24) (h1 : n1 ≤ 3)
    (b1 : y = year + 399) (b2 : m400 = y / 400) (b3 : y1 = y - 400 * m400) (b4 : m100 = y1 / 100)
    (b5 : y2 = y1 - 100 * m100) (b6 : m4 = y2 / 4) (b7 : y3 = y2 - 4 * m4) :
    146097 * m400 + 36524 * m100 + 1461 * m4 + 365 * y3
      = 146097 * n400 + 36524 * n100 + 1461 * n4 + 365 * n1 + 146097 := by
  have e1 : m400 = n400 + 1 ∧ y1 = 100 * n100 + 4 * n4 + n1 := by omega
  clear b1 b2 b3 hy
  have e3 : m100 = n100 ∧ y2 = 4 * n4 + n1 := by omega
  clear b4 b5
  have e5 : m4 = n4 ∧ y3 = n1 := by omega
  clear b6 b7
  rw [e1.1, e3.1, e5.1, e5.2]
  omega

/-- The last year of a four-year cycle is a leap year unless it ends a century that does not end a 400-year cycle. -/
theorem leap_of_cut (year n400 n100 n4 : Nat)
    (hy : year = 400 * n400 + 100 * n100 + 4 * n4 + 3 + 1) (h4 : n4 ≤ 24)
    (h : n4 = 24 → n100 = 3) :
    year % 4 = 0 ∧ (year % 100 ≠ 0 ∨ year % 400 = 0) := by
  refine ⟨by omega, ?_⟩
  by_cases f2 : n4 = 24
  · right
    have := h f2
    omega
  · left
    omega

/-- The year-cutting of `absDate` inverts `daysSinceEpoch`: the day count is recovered from the
year and the day within it, and the day within the year is in range for that year. -/
theorem yearDay_spec (d : Nat) :
    daysSinceEpoch (yearDay d).1 + (yearDay d).2 = d + 146097 ∧
    1 ≤ (yearDay d).1 ∧
    ((yearDay d).2 < 365 ∨ ((yearDay d).2 = 365 ∧ isLeap (yearDay d).1 = true)) ∧
    (d < 3652059 → (yearDay d).1 < 10000) := by
  obtain ⟨n400, d1, r100, n100, d2, n4, d3, r1, n1, a1, a2, a3, a4, a5, a6, a7, a8, a9, hyd⟩ :=
    yearDay_eq d
  obtain ⟨y, m400, y1, m100, y2, m4, y3, b1, b2, b3, b4, b5, b6, b7, hds⟩ :=
    daysSinceEpoch_eq (yearDay d).1
  obtain ⟨c1, c2, c3, c4, c5, c6⟩ := cut_bounds d n400 d1 r100 n100 d2 n4 d3 r1 n1
    a1 a2 a3 a4 a5 a6 a7 a8 a9
  have hep := epoch_of_cut (yearDay d).1 n400 n100 n4 n1 y m400 y1 m100 y2 m4 y3
    (by rw [hyd]) c1 c2 c3 b1 b2 b3 b4 b5 b6 b7
  clear a1 a2 a3 a4 a5 a6 a7 a8 a9 b1 b2 b3 b4 b5 b6 b7
  rw [hds, hep, isLeap_iff, hyd]
  dsimp only
  refine ⟨by omega, by omega, ?_, by omega⟩
  by_cases hlt : d3 - 365 * n1 < 365
  · exact Or.inl hlt
  · right
    have h365 : d3 - 365 * n1 = 365 := by omega
    obtain ⟨f1, f2⟩ := c6 h365
    exact ⟨h365, leap_of_cut _ n400 n100 n4 (by rw [f1]) c2 f2⟩

set_option maxRecDepth 100000 in
/-- The month/day part of `absDate`, checked on every day of a year: month and day are in
range, and the day of the year is recovered from them. -/
theorem monthDay_spec : ∀ (leap : Bool) (yday : Fin 366), (yday.val < 365 ∨ leap = true) →
    1 ≤ (monthDay leap yday.val).1 ∧ (monthDay leap yday.val).1 ≤ 12 ∧
    1 ≤ (monthDay leap yday.val).2 ∧
    (monthDay leap yday.val).2 ≤
      (if (monthDay leap yday.val).1 = 2 ∧ leap = true then 29
       else daysBefore.getD (monthDay leap yday.val).1 0
         - daysBefore.getD ((monthDay leap yday.val).1 - 1) 0) ∧
    daysBefore.getD ((monthDay leap yday.val).1 - 1) 0 +
      (if leap && decide ((monthDay leap yday.val).1 ≥ 3) then 1 else 0) +
      ((monthDay leap yday.val).2 - 1) = yday.val ∧
    (monthDay leap yday.val).2 ≤ 31 := by
  decide

end time

namespace time

/-- Reading back a timestamp printed from in-range fields: the six numbers are recovered. -/
theorem Parse_fields (year month day hour min sec : Nat)
    (hy : year < 10000) (hmo : month < 100) (hd : day < 100) (hh : hour < 100)
    (hmi : min < 100) (hs : sec < 100) :
    ParseRFC3339 (String.mk (appendInt year 4 ++ ['-'] ++ appendInt month 2 ++ ['-'] ++
        appendInt day 2 ++ ['T'] ++ appendInt hour 2 ++ [':'] ++ appendInt min 2 ++ [':'] ++
        appendInt sec 2 ++ ['Z']))
      = if 1 ≤ month ∧ month ≤ 12 ∧ 1 ≤ day ∧ day ≤ daysIn month year ∧
            hour < 24 ∧ min < 60 ∧ sec < 60 then
          some (unixDate year month day hour min sec)
        else none := by
  rw [appendInt_four year hy, appendInt_two month hmo, appendInt_two day hd,
    appendInt_two hour hh, appendInt_two min hmi, appendInt_two sec hs]
  simp only [ParseRFC3339, List.cons_append, List.nil_append, and_self, if_true]
  rw [number_four year hy, number_two month hmo, number_two day hd, number_two hour hh,
    number_two min hmi, number_two sec hs]

end time

namespace time

/-- The text `FormatRFC3339` writes, in terms of the six fields it prints. -/
theorem FormatRFC3339_eq (t : Nat) :
    FormatRFC3339 t = String.mk (
      appendInt (yearDay (t / 1000000000 / 86400 + unixEpochDays)).1 4 ++ ['-'] ++
      appendInt (monthDay (isLeap (yearDay (t / 1000000000 / 86400 + unixEpochDays)).1)
        (yearDay (t / 1000000000 / 86400 + unixEpochDays)).2).1 2 ++ ['-'] ++
      appendInt (monthDay (isLeap (yearDay (t / 1000000000 / 86400 + unixEpochDays)).1)
        (yearDay (t / 1000000000 / 86400 + unixEpochDays)).2).2 2 ++ ['T'] ++
      appendInt (t / 1000000000 % 86400 / 3600) 2 ++ [':'] ++
      appendInt ((t / 1000000000 % 86400 - t / 1000000000 % 86400 / 3600 * 3600) / 60) 2 ++ [':'] ++
      appendInt (t / 1000000000 % 86400 - t / 1000000000 % 86400 / 3600 * 3600 -
        (t / 1000000000 % 86400 - t / 1000000000 % 86400 / 3600 * 3600) / 60 * 60) 2 ++ ['Z']) :=
  rfl

/-- A timestamp printed by `FormatRFC3339` for a reading before the year 10000 is a valid
timestamp, and the instant it denotes is the reading cut down to whole seconds. -/
theorem Parse_Format (t : Nat) (h : t < 253402300800 * 1000000000) :
    ParseRFC3339 (FormatRFC3339 t) = some ((t / 1000000000 : Nat) : Int) := by
  rw [FormatRFC3339_eq]
  generalize hsec : t / 1000000000 = sec
  have hsec' : sec < 253402300800 := by omega
  clear hsec h
  generalize hd : sec / 86400 + unixEpochDays = d
  have hd' : d < 3652059 ∧ d = sec / 86400 + 719162 := by
    unfold unixEpochDays at hd
    omega
  clear hd
  obtain ⟨y1, y2, y3, y4⟩ := yearDay_spec d
  have hyday : (yearDay d).2 < 366 := by omega
  have hm := monthDay_spec (isLeap (yearDay d).1) ⟨(yearDay d).2, hyday⟩
    (by rcases y3 with h | h
        · exact Or.inl h
        · exact Or.inr h.2)
  dsimp only at hm
  generalize hY : (yearDay d).1 = year at *
  generalize hJ : (yearDay d).2 = yday at *
  generalize hL : isLeap year = leap at *
  generalize hM : (monthDay leap yday).1 = month at *
  generalize hD : (monthDay leap yday).2 = day at *
  obtain ⟨m1, m2, m3, m4, m5, m6⟩ := hm
  rw [Parse_fields year month day _ _ _ (y4 hd'.1) (by omega) (by omega) (by omega) (by omega)
    (by omega)]
  have hdays : day ≤ daysIn month year := by
    unfold daysIn
    rw [hL]
    exact m4
  rw [if_pos ⟨m1, m2, m3, hdays, by omega, by omega, by omega⟩]
  unfold unixDate
  rw [hL]
  simp only [Option.some.injEq]
  generalize daysBefore.getD (month - 1) 0 = before at *
  generalize (if (leap && decide (month ≥ 3)) = true then 1 else 0) = adj at *
  generalize daysSinceEpoch year = epoch at *
  clear m4 hdays y3 hL hM hD hY hJ
  omega

end time

namespace messaging

/-- The test double runs on a forward-going clock. -/
theorem testRuntime_timed : testRuntime.Timed TestWorld.clock where
  randRead := fun e => by simp [testRuntime]
  now := fun e => by simp [testRuntime]
  marshal := fun v e => by simp [testRuntime]
  write := fun m e => by simp [testRuntime]

/-- C9 as stated fails: on the healthy test double, whose clock goes forward, a `Send` that
starts at 13:20:00.5 stamps its envelope "2025-11-04T13:20:00Z", which denotes 13:20:00.0, an
instant before the call started. -/
theorem Send_timestamp_precedes_start :
    (marshals ((MessageService.mk testRuntime.recording).Send "events" "" [("type", "click")]
        ⟨(testWorld, []), []⟩).2.env.2).map WrappedMessage.Timestamp
      = ["2025-11-04T13:20:00Z"] ∧
    time.ParseRFC3339 "2025-11-04T13:20:00Z" = some 1762262400 ∧
    (1762262400 : Int) * 1000000000 < (testWorld.clock : Int) := by
  decide

/-- C9, amended: when the clock goes forward and reads a date before the year 10000, the
envelope's timestamp is a valid timestamp denoting the clock reading cut down to whole
seconds: an instant no later than the return of the call and less than one second before its
start. -/
theorem Send_timestamp_window {ω π : Type} (rt : Runtime ω π) (clock : ω → Nat)
    (ht : rt.Timed clock) (topic key : String) (message : π) (env : ω) (log : List LogEntry)
    (v : WrappedMessage π)
    (hv : v ∈ marshals
      ((MessageService.mk rt.recording).Send topic key message ⟨(env, []), log⟩).2.env.2)
    (hy : (rt.Now (rt.RandRead env).2).1 < 253402300800 * 1000000000) :
    ∃ sec : Nat, time.ParseRFC3339 v.Timestamp = some (sec : Int) ∧
      sec = (rt.Now (rt.RandRead env).2).1 / 1000000000 ∧
      clock env < (sec + 1) * 1000000000 ∧
      sec * 1000000000 ≤ clock
        ((MessageService.mk rt.recording).Send topic key message ⟨(env, []), log⟩).2.env.1 := by
  have h0 := ht.randRead env
  have h1 := ht.now (rt.RandRead env).2
  refine ⟨(rt.Now (rt.RandRead env).2).1 / 1000000000, ?_, rfl, by omega, ?_⟩
  · rcases Send_cases rt topic key message env log with
      ⟨e, _, _, htr⟩ | ⟨raw, hraw, w, hw, ⟨err, _, _, htr⟩ | ⟨value, _, msg, _, htr, _⟩⟩
    · rw [htr] at hv; simp [marshals] at hv
    · rw [htr] at hv
      simp only [marshals, List.mem_singleton] at hv
      rw [hv, hw]
      exact time.Parse_Format _ hy
    · rw [htr] at hv
      simp only [marshals, List.mem_singleton] at hv
      rw [hv, hw]
      exact time.Parse_Format _ hy
  · rcases Send_cases rt topic key message env log with
      ⟨e, _, _, htr⟩ | ⟨raw, hraw, w, hw, ⟨err, _, _, htr⟩ | ⟨value, _, msg, _, htr, _⟩⟩
    · rw [htr] at hv; simp [marshals] at hv
    · rw [htr]
      have h2 := ht.marshal w (rt.Now (rt.RandRead env).2).2
      dsimp only
      omega
    · rw [htr]
      have h2 := ht.marshal w (rt.Now (rt.RandRead env).2).2
      have h3 := ht.write msg (rt.Marshal w (rt.Now (rt.RandRead env).2).2).2
      dsimp only
      omega

/-- C9, amended, on the healthy test double: the call starts at 13:20:00.5, the envelope says
13:20:00, the call returns after 13:20:00.7. -/
theorem Send_timestamp_window_scenario :
    ∃ sec : Nat, time.ParseRFC3339 "2025-11-04T13:20:00Z" = some (sec : Int) ∧
      sec = 1762262400600001000 / 1000000000 ∧
      1762262400500000000 < (sec + 1) * 1000000000 ∧
      sec * 1000000000 ≤ 1762262400700002000 :=
  Send_timestamp_window testRuntime TestWorld.clock testRuntime_timed "events" ""
    [("type", "click")] testWorld []
    ⟨"00010203-0405-4607-8809-0a0b0c0d0e0f", "was-8-go", "2025-11-04T13:20:00Z",
     [("type", "click")]⟩
    (by decide) (by decide)

end messaging
